import Mathlib

/-!
# Verification of the trust-sdk x402 payment adapter

A shallow embedding of the x402 payment protocol adapter of the
`den-labs/trust-sdk` repository (`src/x402.ts`, `src/errors.ts`,
`src/constants.ts`, `src/client.ts`), together with theorems settling the
frozen claims about it.

Conventions of the embedding:
* JavaScript numbers that are used as integers (unix times, status codes,
  chain ids) are modelled as `Nat`/`Int`; `NaN` (the result of `parseInt` on a
  non-numeric string) is modelled as `none` in an `Option`.
* The ambient effects of the source (`Date.now()`, `crypto.getRandomValues`,
  network transport, the injected `signTypedData` capability) are modelled as
  explicit inputs.
* `btoa`/`atob` are modelled as a base64 codec over latin-1 code points,
  `JSON.stringify`/`JSON.parse` as a serializer and parser for a JSON value
  type; both are executable and proved to round-trip.
* Thrown exceptions are modelled with `Except`.
-/

/-! ## JavaScript numeric and string primitives -/

/-- The character `'0' + d` for a digit value `d < 10`. -/
def digitChar (d : Nat) : Char := Char.ofNat (48 + d)

/-- Decimal digits, fuelled so that the definition is structural (and hence
computable by the kernel); `natDigits` supplies ample fuel. -/
def natDigitsAux : Nat → Nat → List Char
  | 0, _ => []
  | fuel + 1, n =>
    if n < 10 then [digitChar n]
    else natDigitsAux fuel (n / 10) ++ [digitChar (n % 10)]

/-- Decimal digits of a natural number, most significant first.  Models the
decimal rendering performed by JavaScript `String(n)` / `JSON.stringify(n)`
for a non-negative integer. -/
def natDigits (n : Nat) : List Char := natDigitsAux (n + 1) n

/-- JavaScript `String(n)` for a non-negative number. -/
def jsString (n : Nat) : String := ⟨natDigits n⟩

/-- Numeric value of a list of decimal digit characters. -/
def digitsVal (cs : List Char) : Nat :=
  cs.foldl (fun a c => 10 * a + (c.toNat - 48)) 0

/-- JavaScript `parseInt(s, 10)` restricted to the leading-digits part:
value of the maximal digit prefix, `none` when there is none (`NaN`). -/
def leadingInt (cs : List Char) : Option Nat :=
  let ds := cs.takeWhile Char.isDigit
  if ds.isEmpty then none else some (digitsVal ds)

/-- JavaScript `parseInt(s, 10)`: skip leading whitespace, optional sign, then
the maximal run of decimal digits; `none` models `NaN`. -/
def jsParseInt (s : String) : Option Int :=
  let t := s.data.dropWhile (fun c => c = ' ' ∨ c = '\t' ∨ c = '\n' ∨ c = '\r')
  if t.head? = some '-' then (leadingInt t.tail).map (fun n => -(n : Int))
  else if t.head? = some '+' then (leadingInt t.tail).map (fun n => (n : Int))
  else (leadingInt t).map (fun n => (n : Int))

/-- The value of a hexadecimal digit character (either case), `none`
otherwise. -/
def hexDigitVal (c : Char) : Option Nat :=
  if c.isDigit then some (c.toNat - 48)
  else if 'a' ≤ c ∧ c ≤ 'f' then some (c.toNat - 87)
  else if 'A' ≤ c ∧ c ≤ 'F' then some (c.toNat - 55)
  else none

/-- JavaScript string whitespace (`StrWhiteSpaceChar`), trimmed from both
ends by `BigInt(string)`: the ASCII whitespace characters plus the no-break
space and the zero-width no-break space (the rarer Unicode space separators
are not modelled). -/
def isJsWs (c : Char) : Bool :=
  c == ' ' || c == '\t' || c == '\n' || c == '\x0b' || c == '\x0c' || c == '\r' ||
    c == '\u00A0' || c == '\uFEFF'

/-- Trim `isJsWs` characters from both ends of a character list. -/
def trimJsWs (cs : List Char) : List Char :=
  ((cs.dropWhile isJsWs).reverse.dropWhile isJsWs).reverse

/-- The value of one digit character in a given radix (hex letters in either
case), `none` when the character is not a digit of that radix. -/
def digitValRadix (radix : Nat) (c : Char) : Option Nat :=
  (hexDigitVal c).bind (fun v => if v < radix then some v else none)

/-- The value of a non-empty run of digit characters in a given radix,
`none` on an empty run or a character that is not a digit of the radix. -/
def valRadix (radix : Nat) (cs : List Char) : Option Nat :=
  if cs.isEmpty then none
  else cs.foldl (fun acc c => acc.bind (fun a =>
    (digitValRadix radix c).map (fun d => a * radix + d))) (some 0)

/-- JavaScript `BigInt(s)` (ECMAScript `StringToBigInt`): trim string
whitespace from both ends; an empty remainder is `0n`; a `0x`/`0X`,
`0o`/`0O` or `0b`/`0B` prefix introduces an unsigned hexadecimal, octal or
binary literal; otherwise an optional sign followed by decimal digits.
Anything else (a sign on a radix-prefixed literal, a decimal point, an
exponent, a stray character) throws a `SyntaxError`, modelled as `none`. -/
def jsBigInt (s : String) : Option Int :=
  match trimJsWs s.data with
  | [] => some 0
  | '0' :: x :: ds =>
    if x = 'x' ∨ x = 'X' then (valRadix 16 ds).map (fun n => (n : Int))
    else if x = 'o' ∨ x = 'O' then (valRadix 8 ds).map (fun n => (n : Int))
    else if x = 'b' ∨ x = 'B' then (valRadix 2 ds).map (fun n => (n : Int))
    else (valRadix 10 ('0' :: x :: ds)).map (fun n => (n : Int))
  | '-' :: ds => (valRadix 10 ds).map (fun n => -(n : Int))
  | '+' :: ds => (valRadix 10 ds).map (fun n => (n : Int))
  | t => (valRadix 10 t).map (fun n => (n : Int))

/-- JavaScript `String.prototype.split` with a single-character separator. -/
def splitOnChar (sep : Char) : List Char → List (List Char)
  | [] => [[]]
  | c :: rest =>
    if c = sep then [] :: splitOnChar sep rest
    else
      match splitOnChar sep rest with
      | [] => [[c]]
      | g :: gs => (c :: g) :: gs

/-- One lowercase hex digit, as produced by JavaScript `Number.toString(16)`. -/
def hexDigit (d : Nat) : Char := "0123456789abcdef".data.getD d '*'

/-- `b.toString(16).padStart(2, '0')` for a byte `b < 256`: exactly two
lowercase hex characters. -/
def byteHex (b : Nat) : List Char := [hexDigit (b / 16), hexDigit (b % 16)]

/-! ## base64 (`btoa` / `atob`)

`btoa` interprets its argument as latin-1 code points (it throws an
`InvalidCharacterError` on any code point above 255) and emits the standard
base64 alphabet with `=` padding; `atob` implements the forgiving-base64
decode of the WHATWG Infra standard: ASCII whitespace is removed, trailing
padding is optional, and the leftover bits of a partial final quantum are
discarded. -/

/-- The standard base64 alphabet. -/
def b64Alphabet : List Char :=
  "ABCDEFGHIJKLMNOPQRSTUVWXYZabcdefghijklmnopqrstuvwxyz0123456789+/".data

/-- The base64 character for a 6-bit group. -/
def b64Char (n : Nat) : Char := b64Alphabet.getD n '*'

/-- The 6-bit value of a base64 character, `none` for a character outside the
alphabet (the alphabet has 64 characters, and `List.indexOf` returns the
length when the character is absent). -/
def b64Val (c : Char) : Option Nat :=
  let i := b64Alphabet.indexOf c
  if i < 64 then some i else none

/-- base64-encode a byte sequence (3 bytes to 4 characters, `=` padding). -/
def b64Encode : List Nat → List Char
  | [] => []
  | [a] => [b64Char (a / 4), b64Char (a % 4 * 16), '=', '=']
  | [a, b] => [b64Char (a / 4), b64Char (a % 4 * 16 + b / 16), b64Char (b % 16 * 4), '=']
  | a :: b :: c :: rest =>
    b64Char (a / 4) :: b64Char (a % 4 * 16 + b / 16) ::
      b64Char (b % 16 * 4 + c / 64) :: b64Char (c % 64) :: b64Encode rest

/-- ASCII whitespace, which forgiving-base64 (the WHATWG algorithm behind
`atob`) removes before decoding. -/
def isB64Ws (c : Char) : Bool :=
  c == '\t' || c == '\n' || c == '\x0c' || c == '\r' || c == ' '

/-- Remove up to two trailing `=` padding characters (forgiving-base64 does
this only when the whitespace-free input length is a multiple of four). -/
def stripB64Padding (t : List Char) : List Char :=
  if t.getLast? = some '=' then
    if t.dropLast.getLast? = some '=' then t.dropLast.dropLast else t.dropLast
  else t

/-- Decode a padding-free base64 character sequence: full quanta of four
characters, with a final quantum of two or three characters contributing one
or two bytes (the leftover bits are discarded, as forgiving-base64 does).  A
final quantum of one character — input length 1 mod 4 — is an error, as is
any character outside the alphabet (in particular a non-trailing `=`). -/
def b64DecodeRaw : List Char → Option (List Nat)
  | [] => some []
  | [w, x] => do
    let dw ← b64Val w
    let dx ← b64Val x
    pure [dw * 4 + dx / 16]
  | [w, x, y] => do
    let dw ← b64Val w
    let dx ← b64Val x
    let dy ← b64Val y
    pure [dw * 4 + dx / 16, dx % 16 * 16 + dy / 4]
  | w :: x :: y :: z :: rest => do
    let dw ← b64Val w
    let dx ← b64Val x
    let dy ← b64Val y
    let dz ← b64Val z
    let tail ← b64DecodeRaw rest
    pure ((dw * 4 + dx / 16) :: (dx % 16 * 16 + dy / 4) :: (dy % 4 * 64 + dz) :: tail)
  | [_] => none

/-- JavaScript `btoa`: base64 of the latin-1 code points of the string;
`none` models the `InvalidCharacterError` thrown on a code point above 255. -/
def btoa (s : String) : Option String :=
  if s.data.all (fun c => c.toNat < 256) then some ⟨b64Encode (s.data.map Char.toNat)⟩
  else none

/-- JavaScript `atob` (forgiving-base64 decode): remove ASCII whitespace,
strip up to two trailing `=` when the remaining length is a multiple of
four, then decode; `none` models the `DOMException` thrown on anything else
(a remainder of one character, a stray `=`, a character outside the
alphabet).  In particular unpadded input and the empty string decode. -/
def atob (s : String) : Option String :=
  let t := s.data.filter (fun c => !(isB64Ws c))
  let t2 := if t.length % 4 = 0 then stripB64Padding t else t
  (b64DecodeRaw t2).map (fun bs => ⟨bs.map Char.ofNat⟩)

/-! ## JSON (`JSON.stringify` / `JSON.parse`)

A JSON value type together with an executable serializer and parser.  The
serializer escapes exactly what `JSON.stringify` escapes: the quote, the
backslash, and every control character (named escapes where they exist,
`\u00XX` otherwise); other characters are emitted verbatim.  The parser
accepts a sound fragment of the `JSON.parse` grammar — strings with the
standard escapes and no raw control characters, integer numerals without
leading zeros, arrays, objects, literals; no insignificant whitespace and no
fractional or exponent number forms (those produce floating-point values,
which this integer-exact embedding does not represent) — so that every text
the model parser accepts is real JSON with the same value, and everything
the serializer emits parses back.  Failure of the parser models `JSON.parse`
throwing on that fragment. -/

inductive Json where
  | null : Json
  | bool (b : Bool) : Json
  | num (n : Int) : Json
  | str (s : String) : Json
  | arr (items : List Json) : Json
  | obj (fields : List (String × Json)) : Json
deriving Repr

/-- Serialize one string character the way `JSON.stringify` does: escape the
quote, the backslash and the control characters (named escapes for
backspace, tab, newline, form feed and carriage return, `\u00XX` for the
rest); everything else is emitted verbatim. -/
def escChar (c : Char) : List Char :=
  if c = '"' then ['\\', '"']
  else if c = '\\' then ['\\', '\\']
  else if c = '\x08' then ['\\', 'b']
  else if c = '\t' then ['\\', 't']
  else if c = '\n' then ['\\', 'n']
  else if c = '\x0c' then ['\\', 'f']
  else if c = '\r' then ['\\', 'r']
  else if c.toNat < 32 then
    ['\\', 'u', '0', '0', hexDigit (c.toNat / 16), hexDigit (c.toNat % 16)]
  else [c]

/-- Serialize a JSON string literal, quotes included. -/
def serStr (s : String) : List Char :=
  '"' :: (s.data.map escChar).flatten ++ ['"']

/-- Serialize a JSON integer numeral. -/
def serNum (n : Int) : List Char :=
  if n < 0 then '-' :: natDigits n.natAbs else natDigits n.natAbs

mutual

/-- Serialize a JSON value (`JSON.stringify`, which emits no whitespace). -/
def serJson : Json → List Char
  | .null => 'n' :: 'u' :: 'l' :: 'l' :: []
  | .bool true => 't' :: 'r' :: 'u' :: 'e' :: []
  | .bool false => 'f' :: 'a' :: 'l' :: 's' :: 'e' :: []
  | .num n => serNum n
  | .str s => serStr s
  | .arr items => '[' :: serItems items ++ [']']
  | .obj fields => '{' :: serFields fields ++ ['}']

/-- Serialize the comma-separated elements of an array. -/
def serItems : List Json → List Char
  | [] => []
  | [j] => serJson j
  | j :: rest => serJson j ++ ',' :: serItems rest

/-- Serialize the comma-separated members of an object. -/
def serFields : List (String × Json) → List Char
  | [] => []
  | [(k, v)] => serStr k ++ ':' :: serJson v
  | (k, v) :: rest => serStr k ++ ':' :: serJson v ++ ',' :: serFields rest

end

/-- `JSON.stringify`. -/
def jsonStringify (j : Json) : String := ⟨serJson j⟩

/-- Unescape a named escape character following a backslash in a string
literal (`\uXXXX` escapes are handled separately). -/
def unescChar (c : Char) : Option Char :=
  if c = '"' then some '"'
  else if c = '\\' then some '\\'
  else if c = '/' then some '/'
  else if c = 'b' then some '\x08'
  else if c = 'f' then some '\x0c'
  else if c = 'n' then some '\n'
  else if c = 'r' then some '\r'
  else if c = 't' then some '\t'
  else none

mutual

/-- Parse the body of a string literal (after the opening quote), returning
the string and the input following the closing quote.  A raw control
character is rejected, as `JSON.parse` rejects it; `parseEsc` handles the
character following a backslash. -/
def parseStrBody : List Char → Option (String × List Char)
  | [] => none
  | c :: rest =>
    if c = '"' then some ("", rest)
    else if c = '\\' then parseEsc rest
    else if c.toNat < 32 then none
    else do
      let (s, r) ← parseStrBody rest
      pure (⟨c :: s.data⟩, r)

/-- Parse the character following a backslash in a string literal, then the
remainder of the literal.  `parseEscU1` … `parseEscU4` consume the four hex
digits of a `\uXXXX` escape one at a time, keeping the mutual recursion
structural. -/
def parseEsc : List Char → Option (String × List Char)
  | [] => none
  | e :: rest2 =>
    if e = 'u' then parseEscU1 rest2
    else do
      let u ← unescChar e
      let (s, r) ← parseStrBody rest2
      pure (⟨u :: s.data⟩, r)

/-- First hex digit of a `\uXXXX` escape. -/
def parseEscU1 : List Char → Option (String × List Char)
  | [] => none
  | h :: rest => do
    let d ← hexDigitVal h
    parseEscU2 d rest

/-- Second hex digit of a `\uXXXX` escape. -/
def parseEscU2 : Nat → List Char → Option (String × List Char)
  | _, [] => none
  | acc, h :: rest => do
    let d ← hexDigitVal h
    parseEscU3 (acc * 16 + d) rest

/-- Third hex digit of a `\uXXXX` escape. -/
def parseEscU3 : Nat → List Char → Option (String × List Char)
  | _, [] => none
  | acc, h :: rest => do
    let d ← hexDigitVal h
    parseEscU4 (acc * 16 + d) rest

/-- Fourth hex digit of a `\uXXXX` escape, then the remainder of the
literal.  An escape denoting a surrogate code unit — which `JSON.parse`
accepts, producing a lone UTF-16 surrogate — is not a Unicode scalar value
and is rejected by the model. -/
def parseEscU4 : Nat → List Char → Option (String × List Char)
  | _, [] => none
  | acc, h :: rest => do
    let d ← hexDigitVal h
    let v := acc * 16 + d
    if 55296 ≤ v ∧ v < 57344 then none
    else do
      let (s, r) ← parseStrBody rest
      pure (⟨Char.ofNat v :: s.data⟩, r)

end

/-- Parse a run of decimal digits as a natural number.  A leading zero is
only allowed for the numeral `0` itself, as in the JSON number grammar. -/
def parseNat (cs : List Char) : Option (Nat × List Char) :=
  let ds := cs.takeWhile Char.isDigit
  if ds.isEmpty then none
  else if ds.headD '0' = '0' ∧ ds.length ≠ 1 then none
  else some (digitsVal ds, cs.dropWhile Char.isDigit)

mutual

/-- Parse one JSON value.  `fuel` bounds the recursion depth; `jsonParse`
supplies more fuel than any input can consume. -/
def parseVal : Nat → List Char → Option (Json × List Char)
  | 0, _ => none
  | fuel + 1, cs =>
    match cs with
    | [] => none
    | c :: rest =>
      if c = 'n' then
        if rest.take 3 = ['u', 'l', 'l'] then some (.null, rest.drop 3) else none
      else if c = 't' then
        if rest.take 3 = ['r', 'u', 'e'] then some (.bool true, rest.drop 3) else none
      else if c = 'f' then
        if rest.take 4 = ['a', 'l', 's', 'e'] then some (.bool false, rest.drop 4) else none
      else if c = '"' then
        (parseStrBody rest).map (fun p => (.str p.1, p.2))
      else if c = '[' then
        if rest.head? = some ']' then some (.arr [], rest.tail)
        else (parseItems fuel rest).map (fun p => (.arr p.1, p.2))
      else if c = '{' then
        if rest.head? = some '}' then some (.obj [], rest.tail)
        else (parseFields fuel rest).map (fun p => (.obj p.1, p.2))
      else if c = '-' then
        (parseNat rest).map (fun p => (.num (-(p.1 : Int)), p.2))
      else
        (parseNat (c :: rest)).map (fun p => (.num (p.1 : Int), p.2))

/-- Parse the elements of a non-empty array up to and including `']'`. -/
def parseItems : Nat → List Char → Option (List Json × List Char)
  | 0, _ => none
  | fuel + 1, cs => do
    let (j, r) ← parseVal fuel cs
    if r.head? = some ']' then pure ([j], r.tail)
    else if r.head? = some ',' then do
      let (js, r3) ← parseItems fuel r.tail
      pure (j :: js, r3)
    else none

/-- Parse the members of a non-empty object up to and including `'}'`. -/
def parseFields : Nat → List Char → Option (List (String × Json) × List Char)
  | 0, _ => none
  | fuel + 1, cs =>
    match cs with
    | [] => none
    | c0 :: cs2 =>
      if c0 = '"' then do
        let (k, r) ← parseStrBody cs2
        if r.head? = some ':' then do
          let (v, r3) ← parseVal fuel r.tail
          if r3.head? = some '}' then pure ([(k, v)], r3.tail)
          else if r3.head? = some ',' then do
            let (fs, r5) ← parseFields fuel r3.tail
            pure ((k, v) :: fs, r5)
          else none
        else none
      else none

end

mutual

/-- Fuel consumed by `parseVal` on a serialized value: an upper bound used to
prove the parser inverts the serializer. -/
def jsonWeight : Json → Nat
  | .arr items => 1 + itemsWeight items
  | .obj fields => 1 + fieldsWeight fields
  | _ => 1

/-- Fuel consumed by `parseItems` on serialized array elements. -/
def itemsWeight : List Json → Nat
  | [] => 0
  | j :: rest => 1 + jsonWeight j + itemsWeight rest

/-- Fuel consumed by `parseFields` on serialized object members. -/
def fieldsWeight : List (String × Json) → Nat
  | [] => 0
  | f :: rest => 1 + jsonWeight f.2 + fieldsWeight rest

end

/-- `JSON.parse`: parse a complete JSON document; `none` models the thrown
`SyntaxError`. -/
def jsonParse (s : String) : Option Json :=
  match parseVal (s.data.length + 1) s.data with
  | some (j, []) => some j
  | _ => none

/-! ## x402 data model (`src/types.ts`) -/

/-- `PaymentRequirement.extra` (`src/types.ts`). -/
structure RequirementExtra where
  assetTransferMethod : String
  name : String
  version : String
deriving Repr, DecidableEq

/-- `PaymentRequirement` (`src/types.ts`). -/
structure PaymentRequirement where
  scheme : String
  network : String
  amount : String
  asset : String
  payTo : String
  maxTimeoutSeconds : Int
  extra : RequirementExtra
deriving Repr, DecidableEq

/-- `ResourceInfo` (`src/types.ts`). -/
structure ResourceInfo where
  url : String
  description : String
  mimeType : String
deriving Repr, DecidableEq

/-- `PaymentRequiredBody` (`src/types.ts`): the decoded payment challenge. -/
structure PaymentRequiredBody where
  x402Version : Int
  accepts : List PaymentRequirement
  resource : ResourceInfo
  error : String
deriving Repr, DecidableEq

/-- The JSON form of a `RequirementExtra`, keys in declaration order (the
order `JSON.stringify` emits). -/
def extraJson (e : RequirementExtra) : Json :=
  .obj [("assetTransferMethod", .str e.assetTransferMethod),
        ("name", .str e.name),
        ("version", .str e.version)]

/-- The JSON form of a `PaymentRequirement`. -/
def requirementJson (r : PaymentRequirement) : Json :=
  .obj [("scheme", .str r.scheme),
        ("network", .str r.network),
        ("amount", .str r.amount),
        ("asset", .str r.asset),
        ("payTo", .str r.payTo),
        ("maxTimeoutSeconds", .num r.maxTimeoutSeconds),
        ("extra", extraJson r.extra)]

/-- The JSON form of a `ResourceInfo`. -/
def resourceJson (res : ResourceInfo) : Json :=
  .obj [("url", .str res.url),
        ("description", .str res.description),
        ("mimeType", .str res.mimeType)]

/-- The JSON form of a `PaymentRequiredBody`. -/
def challengeJson (c : PaymentRequiredBody) : Json :=
  .obj [("x402Version", .num c.x402Version),
        ("accepts", .arr (c.accepts.map requirementJson)),
        ("resource", resourceJson c.resource),
        ("error", .str c.error)]

/-- The challenge header a server emits: `btoa(JSON.stringify(body))`
(modelled from the spec §6 "value = base64 of UTF-8 JSON matching
PaymentChallenge" and the repository's tests; the repository itself contains
only the decoding direction). -/
def encodeChallenge (c : PaymentRequiredBody) : Option String :=
  btoa (jsonStringify (challengeJson c))

/-! ## JavaScript property access on parsed JSON

`JSON.parse` returns an untyped object; the dispatcher reads `accepts`,
`resource` and the requirement fields off it.  Property lookup on a parsed
object is modelled by `jsField`; reading a field at the wrong type (which in
JavaScript yields `undefined` and fails later, at the point of use) is
totalized with the type's default value.  On any challenge that matches the
wire schema — the only case the claims exercise — these readers recover the
typed structure exactly (`challengeOfJson_challengeJson`). -/

/-- Property lookup on a JSON object (`undefined` is `none`). -/
def jsField (j : Json) (k : String) : Option Json :=
  match j with
  | .obj fields => (fields.find? (fun f => f.1 == k)).map (fun f => f.2)
  | _ => none

/-- Read a string-valued property; non-strings are totalized to `""`. -/
def strField (j : Option Json) : String :=
  match j with
  | some (.str s) => s
  | _ => ""

/-- Read a number-valued property; non-numbers are totalized to `0`. -/
def numField (j : Option Json) : Int :=
  match j with
  | some (.num n) => n
  | _ => 0

/-- Read an array-valued property; non-arrays are totalized to `[]`. -/
def arrField (j : Option Json) : List Json :=
  match j with
  | some (.arr xs) => xs
  | _ => []

/-- Read a `RequirementExtra` off parsed JSON. -/
def extraOfJson (j : Option Json) : RequirementExtra :=
  { assetTransferMethod := strField (j.bind (jsField · "assetTransferMethod"))
    name := strField (j.bind (jsField · "name"))
    version := strField (j.bind (jsField · "version")) }

/-- Read a `PaymentRequirement` off parsed JSON. -/
def requirementOfJson (j : Json) : PaymentRequirement :=
  { scheme := strField (jsField j "scheme")
    network := strField (jsField j "network")
    amount := strField (jsField j "amount")
    asset := strField (jsField j "asset")
    payTo := strField (jsField j "payTo")
    maxTimeoutSeconds := numField (jsField j "maxTimeoutSeconds")
    extra := extraOfJson (jsField j "extra") }

/-- Read a `ResourceInfo` off parsed JSON. -/
def resourceOfJson (j : Option Json) : ResourceInfo :=
  { url := strField (j.bind (jsField · "url"))
    description := strField (j.bind (jsField · "description"))
    mimeType := strField (j.bind (jsField · "mimeType")) }

/-- Read a `PaymentRequiredBody` off parsed JSON. -/
def challengeOfJson (j : Json) : PaymentRequiredBody :=
  { x402Version := numField (jsField j "x402Version")
    accepts := (arrField (jsField j "accepts")).map requirementOfJson
    resource := resourceOfJson (jsField j "resource")
    error := strField (jsField j "error") }

/-! ## Errors (`src/errors.ts`)

`DenScopeError` carries `name`, `message`, `status` and an optional `body`;
`PaymentRequiredError` fixes `name` and `status = 402`, `AuthenticationError`
fixes its `name`.  The `body` payload is a JSON value when present. -/

/-- The runtime shape of a thrown `DenScopeError`. -/
structure DenScopeError where
  name : String
  message : String
  status : Nat
  body : Option Json
deriving Repr

/-- `new DenScopeError(message, status, body)`. -/
def denScopeError (message : String) (status : Nat) (body : Option Json) : DenScopeError :=
  { name := "DenScopeError", message := message, status := status, body := body }

/-- `new PaymentRequiredError(message, body)`: status is always 402. -/
def paymentRequiredError (message : String) (body : Option Json) : DenScopeError :=
  { name := "PaymentRequiredError", message := message, status := 402, body := body }

/-- `new AuthenticationError(message, status, body)`. -/
def authenticationError (message : String) (status : Nat) (body : Option Json) : DenScopeError :=
  { name := "AuthenticationError", message := message, status := status, body := body }

/-- An error raised by the injected signing capability; the adapter never
inspects it, it propagates unchanged. -/
structure SignError where
  message : String
deriving Repr, DecidableEq

/-- Errors of the JavaScript runtime itself that the adapter can surface:
`BigInt` on a non-numeric amount and `btoa` on a non-latin-1 string. -/
inductive JsError where
  | bigIntSyntaxError : JsError
  | invalidCharacterError : JsError
deriving Repr, DecidableEq

/-- Everything a client call can throw. -/
inductive ClientError where
  | den (e : DenScopeError) : ClientError
  | sign (e : SignError) : ClientError
  | js (e : JsError) : ClientError
deriving Repr

/-! ## Transport model

A `Response` exposes what the dispatcher reads: the status code, the
`payment-required` header (a `headers.get` lookup, `none` when absent) and
the JSON body.  (The source's lazy text fallback for non-JSON error bodies is
not modelled; no claim concerns it.) -/

/-- An HTTP response as seen by the client. -/
structure Response where
  status : Nat
  paymentRequired : Option String
  body : Json
deriving Repr

/-! ## Challenge decoder (`src/x402.ts`, `decodePaymentRequired`) -/

/-- `decodePaymentRequired(response)`: read the `payment-required` header
and test it with JavaScript truthiness — `!header` is true both when the
header is absent (`headers.get` returned `null`) and when it is the empty
string — then `atob` it and `JSON.parse` the result.  A falsy header and a
failing decode throw distinct messages, both as `PaymentRequiredError`.  The
cast `as PaymentRequiredBody` performs no runtime work, so the decoded value
is the raw parsed JSON. -/
def decodePaymentRequired (response : Response) : Except DenScopeError Json :=
  match response.paymentRequired with
  | none => .error (paymentRequiredError "402 response missing PAYMENT-REQUIRED header" none)
  | some header =>
    if header = "" then
      .error (paymentRequiredError "402 response missing PAYMENT-REQUIRED header" none)
    else
    match atob header with
    | none => .error (paymentRequiredError "Failed to decode PAYMENT-REQUIRED header" none)
    | some json =>
      match jsonParse json with
      | none => .error (paymentRequiredError "Failed to decode PAYMENT-REQUIRED header" none)
      | some parsed => .ok parsed

/-! ## Authorization builder (`src/x402.ts`) -/

/-- `randomNonce()` with the 32 random bytes drawn by
`crypto.getRandomValues` made explicit: `'0x' + hex of the bytes`. -/
def randomNonce (bytes : List Nat) : String :=
  "0x" ++ ⟨(bytes.map byteHex).flatten⟩

/-- `parseChainId(network)`: split on `':'`, require exactly two parts with
namespace `eip155`, else throw `Unsupported network format`; the chain id is
`parseInt(parts[1], 10)` (possibly `NaN`, modelled as `none`). -/
def parseChainId (network : String) : Except DenScopeError (Option Int) :=
  let parts := splitOnChar ':' network.data
  if parts.length ≠ 2 ∨ parts.headD [] ≠ "eip155".data then
    .error (paymentRequiredError ("Unsupported network format: " ++ network) none)
  else
    .ok (jsParseInt ⟨parts.getD 1 []⟩)

/-- One member of an EIP-712 type schema. -/
structure TypeField where
  name : String
  type : String
deriving Repr, DecidableEq

/-- `EIP3009_TYPES` (`src/constants.ts`). -/
def EIP3009_TYPES : List (String × List TypeField) :=
  [("TransferWithAuthorization",
    [⟨"from", "address"⟩, ⟨"to", "address"⟩, ⟨"value", "uint256"⟩,
     ⟨"validAfter", "uint256"⟩, ⟨"validBefore", "uint256"⟩, ⟨"nonce", "bytes32"⟩])]

/-- `SIGNATURE_VALIDITY_SECONDS` (`src/constants.ts`). -/
def SIGNATURE_VALIDITY_SECONDS : Nat := 3600

/-- The EIP-712 signing domain passed to the signing capability.  `chainId`
is `none` when `parseInt` produced `NaN`. -/
structure Eip712Domain where
  name : String
  version : String
  chainId : Option Int
  verifyingContract : String
deriving Repr, DecidableEq

/-- The typed authorization message submitted for signing (`message` in
`buildPaymentHeader`); `value`, `validAfter` and `validBefore` are numeric
(`BigInt`) here. -/
structure AuthMessage where
  from_ : String
  to_ : String
  value : Int
  validAfter : Nat
  validBefore : Nat
  nonce : String
deriving Repr, DecidableEq

/-- The argument record of `account.signTypedData`. -/
structure SignRequest where
  domain : Eip712Domain
  types : List (String × List TypeField)
  primaryType : String
  message : AuthMessage
deriving Repr, DecidableEq

/-- A signing account (`X402Config.account`): an address plus the injected
`signTypedData` capability. -/
structure Account where
  address : String
  signTypedData : SignRequest → Except SignError String

/-- `X402Config`. -/
structure X402Config where
  account : Account

/-- The wire-form `authorization` object of the emitted envelope:
`value`, `validAfter` and `validBefore` are strings here. -/
def wireAuthorization (config : X402Config) (requirement : PaymentRequirement)
    (validBefore : Nat) (nonce : String) : Json :=
  .obj [("from", .str config.account.address),
        ("to", .str requirement.payTo),
        ("value", .str requirement.amount),
        ("validAfter", .str "0"),
        ("validBefore", .str (jsString validBefore)),
        ("nonce", .str nonce)]

/-- The `payload` envelope assembled by `buildPaymentHeader` before base64
encoding. -/
def paymentEnvelope (config : X402Config) (requirement : PaymentRequirement)
    (resource : ResourceInfo) (signature : String) (validBefore : Nat)
    (nonce : String) : Json :=
  .obj [("x402Version", .num 2),
        ("resource", resourceJson resource),
        ("accepted", requirementJson requirement),
        ("payload",
          .obj [("signature", .str signature),
                ("authorization", wireAuthorization config requirement validBefore nonce)])]

/-- `buildPaymentHeader(config, requirement, resource)`, with the ambient
unix time (`Math.floor(Date.now() / 1000)`) and the 32 random nonce bytes as
explicit inputs.  Mirrors the source line by line: parse the chain id, build
the domain from the requirement, generate the nonce, compute the validity
bound, build the numeric message, sign, assemble the envelope, base64 it. -/
def buildPaymentHeader (config : X402Config) (requirement : PaymentRequirement)
    (resource : ResourceInfo) (now : Nat) (nonceBytes : List Nat) :
    Except ClientError String := do
  let chainId ← (parseChainId requirement.network).mapError ClientError.den
  let domain : Eip712Domain :=
    { name := requirement.extra.name
      version := requirement.extra.version
      chainId := chainId
      verifyingContract := requirement.asset }
  let nonce := randomNonce nonceBytes
  let validBefore := now + SIGNATURE_VALIDITY_SECONDS
  let value ← match jsBigInt requirement.amount with
    | none => .error (ClientError.js .bigIntSyntaxError)
    | some v => .ok v
  let message : AuthMessage :=
    { from_ := config.account.address
      to_ := requirement.payTo
      value := value
      validAfter := 0
      validBefore := validBefore
      nonce := nonce }
  let signature ← (config.account.signTypedData
    { domain := domain
      types := EIP3009_TYPES
      primaryType := "TransferWithAuthorization"
      message := message }).mapError ClientError.sign
  match btoa (jsonStringify (paymentEnvelope config requirement resource signature validBefore nonce)) with
  | none => .error (ClientError.js .invalidCharacterError)
  | some header => .ok header

/-! ## Request dispatcher (`src/client.ts`) -/

/-- The client configuration: a tagged union of the two mutually exclusive
authentication modes (an `apiKey` credential or an x402 signing account). -/
inductive DenScopeConfig where
  | apiKey (key : String) : DenScopeConfig
  | x402 (account : Account) : DenScopeConfig

/-- `isX402Config` (`'account' in config`). -/
def isX402Config : DenScopeConfig → Bool
  | .x402 _ => true
  | .apiKey _ => false

/-- `isApiKeyConfig` (`'apiKey' in config`). -/
def isApiKeyConfig : DenScopeConfig → Bool
  | .apiKey _ => true
  | .x402 _ => false

/-- `handleResponse`: 2xx yields the JSON body; 401/403 throw
`AuthenticationError`; 402 throws `PaymentRequiredError`; everything else
throws `DenScopeError` — each carrying the status and the response body. -/
def handleResponse (response : Response) : Except ClientError Json :=
  if 200 ≤ response.status ∧ response.status < 300 then .ok response.body
  else if response.status = 401 ∨ response.status = 403 then
    .error (.den (authenticationError ("Authentication failed: " ++ jsString response.status)
      response.status (some response.body)))
  else if response.status = 402 then
    .error (.den (paymentRequiredError "Payment required" (some response.body)))
  else
    .error (.den (denScopeError ("API error: " ++ jsString response.status)
      response.status (some response.body)))

/-- A fallback requirement for `accepts[0]`; it is only ever read under the
guard that `accepts` is non-empty. -/
def emptyRequirement : PaymentRequirement :=
  { scheme := "", network := "", amount := "", asset := "", payTo := ""
    maxTimeoutSeconds := 0, extra := ⟨"", "", ""⟩ }

/-- `DenScope.request`, one logical call.  The transport is modelled by the
two responses the server would return (the second is consumed only when a
retry is issued), and the value of the embedding is the call's outcome paired
with the trace of issued requests, each recorded as its header list.  Mirrors
`src/client.ts` lines 85–117: send with the static auth header; on a 402 with
an x402 account, decode the challenge, require a non-empty `accepts`, build
the payment header from `accepts[0]` and the challenge's resource, and send
exactly one retry carrying only the `X-PAYMENT` header; every other first
response — and unconditionally the retry response — goes to
`handleResponse`. -/
def DenScope.request (config : DenScopeConfig) (response : Response)
    (retryResponse : Response) (now : Nat) (nonceBytes : List Nat) :
    Except ClientError Json × List (List (String × String)) :=
  let headers : List (String × String) :=
    match config with
    | .apiKey key => [("Authorization", "Bearer " ++ key)]
    | .x402 _ => []
  match config with
  | .x402 account =>
    if response.status = 402 then
      match decodePaymentRequired response with
      | .error e => (.error (.den e), [headers])
      | .ok parsed =>
        let paymentRequired := challengeOfJson parsed
        if paymentRequired.accepts.isEmpty then
          (.error (.den (paymentRequiredError "No accepted payment methods" (some parsed))),
            [headers])
        else
          match buildPaymentHeader ⟨account⟩ (paymentRequired.accepts.headD emptyRequirement)
              paymentRequired.resource now nonceBytes with
          | .error e => (.error e, [headers])
          | .ok paymentHeader =>
            (handleResponse retryResponse, [headers, [("X-PAYMENT", paymentHeader)]])
    else
      (handleResponse response, [headers])
  | .apiKey _ => (handleResponse response, [headers])

/-! ## Concrete sample data

Concrete values (taken from the repository's test fixtures) used to exercise
the definitions on closed inputs. -/

/-- The requirement of the repository's test fixtures. -/
def sampleRequirement : PaymentRequirement :=
  { scheme := "exact"
    network := "eip155:42220"
    amount := "1000"
    asset := "0xcebA9300f2b948710d2653dD7B07f33A8B32118C"
    payTo := "0xPayTo"
    maxTimeoutSeconds := 30
    extra := ⟨"eip3009", "USD Coin", "2"⟩ }

/-- The resource descriptor of the repository's test fixtures. -/
def sampleResource : ResourceInfo :=
  { url := "https://denscope.vercel.app/api/v1/agent/42220/5/score"
    description := "Trust score"
    mimeType := "application/json" }

/-- A complete sample challenge. -/
def sampleChallenge : PaymentRequiredBody :=
  { x402Version := 2
    accepts := [sampleRequirement]
    resource := sampleResource
    error := "missing payment header" }

/-- A challenge with no accepted payment methods. -/
def emptyAcceptsChallenge : PaymentRequiredBody :=
  { x402Version := 2
    accepts := []
    resource := sampleResource
    error := "missing payment header" }

/-- A signing account that always signs. -/
def sampleAccount : Account :=
  { address := "0x1234567890abcdef1234567890abcdef12345678"
    signTypedData := fun _ => .ok "0xdeadbeef" }

/-- 32 distinct sample nonce bytes. -/
def sampleNonceBytes : List Nat := List.range 32

/-! ## Properties of the decimal rendering -/

theorem digitChar_isDigit {d : Nat} (h : d < 10) : (digitChar d).isDigit := by
  interval_cases d <;> decide

theorem toNat_digitChar {d : Nat} (h : d < 10) : (digitChar d).toNat = 48 + d := by
  interval_cases d <;> decide

theorem natDigits_ne_nil (n : Nat) : natDigits n ≠ [] := by
  unfold natDigits natDigitsAux
  split <;> simp

theorem natDigitsAux_all_isDigit :
    ∀ (fuel n : Nat), n < fuel → ∀ c ∈ natDigitsAux fuel n, c.isDigit := by
  intro fuel
  induction fuel with
  | zero => intro n hn; omega
  | succ f ih =>
    intro n hn c hc
    rw [natDigitsAux] at hc
    split at hc
    · next h => simp at hc; subst hc; exact digitChar_isDigit h
    · next h =>
      simp only [List.mem_append, List.mem_singleton] at hc
      rcases hc with hc | hc
      · exact ih (n / 10) (by omega) c hc
      · subst hc; exact digitChar_isDigit (Nat.mod_lt _ (by omega))

theorem natDigits_all_isDigit (n : Nat) : ∀ c ∈ natDigits n, c.isDigit :=
  natDigitsAux_all_isDigit (n + 1) n (by omega) 

theorem digitsVal_append_singleton (xs : List Char) (c : Char) :
    digitsVal (xs ++ [c]) = 10 * digitsVal xs + (c.toNat - 48) := by
  simp [digitsVal, List.foldl_append]

theorem digitsVal_natDigitsAux :
    ∀ (fuel n : Nat), n < fuel → digitsVal (natDigitsAux fuel n) = n := by
  intro fuel
  induction fuel with
  | zero => intro n hn; omega
  | succ f ih =>
    intro n hn
    rw [natDigitsAux]
    split
    · next h => simp [digitsVal, toNat_digitChar h]
    · next h =>
      rw [digitsVal_append_singleton, ih (n / 10) (by omega),
        toNat_digitChar (Nat.mod_lt _ (by omega))]
      omega

theorem digitsVal_natDigits (n : Nat) : digitsVal (natDigits n) = n :=
  digitsVal_natDigitsAux (n + 1) n (by omega)

theorem natDigitsAux_ne_nil (fuel n : Nat) (h : 0 < fuel) : natDigitsAux fuel n ≠ [] := by
  cases fuel with
  | zero => omega
  | succ f =>
    rw [natDigitsAux]
    split <;> simp

theorem natDigitsAux_head_ne_zero :
    ∀ (fuel n : Nat), n < fuel → 1 ≤ n →
      ∀ c, (natDigitsAux fuel n).head? = some c → c ≠ '0' := by
  intro fuel
  induction fuel with
  | zero => intro n hn; omega
  | succ f ih =>
    intro n hn h1 c hc
    rw [natDigitsAux] at hc
    split at hc
    · next h =>
      simp only [List.head?_cons, Option.some.injEq] at hc
      subst hc
      intro h0
      have ht := congrArg Char.toNat h0
      rw [toNat_digitChar h] at ht
      have h48 : ('0').toNat = 48 := by decide
      omega
    · next h =>
      rw [List.head?_append] at hc
      cases hl : (natDigitsAux f (n / 10)).head? with
      | none =>
        rw [List.head?_eq_none_iff] at hl
        exact absurd hl (natDigitsAux_ne_nil f (n / 10) (by omega))
      | some d =>
        rw [hl] at hc
        rw [Option.or] at hc
        cases hc
        exact ih (n / 10) (by omega) (by omega) c hl

theorem natDigits_head_ne_zero {k : Nat} (h1 : 1 ≤ k) :
    ∀ c, (natDigits k).head? = some c → c ≠ '0' :=
  natDigitsAux_head_ne_zero (k + 1) k (by omega) h1

/-! ## Properties of the base64 codec -/

theorem b64Val_b64Char {n : Nat} (h : n < 64) : b64Val (b64Char n) = some n := by
  interval_cases n <;> rfl

theorem b64Alphabet_length : b64Alphabet.length = 64 := rfl

theorem b64Char_ne_pad (n : Nat) : b64Char n ≠ '=' := by
  by_cases h : n < 64
  · interval_cases n <;> decide
  · unfold b64Char
    rw [List.getD_eq_default _ _ (by rw [b64Alphabet_length]; omega)]
    decide

theorem b64Char_not_ws (n : Nat) : isB64Ws (b64Char n) = false := by
  by_cases h : n < 64
  · interval_cases n <;> decide
  · unfold b64Char
    rw [List.getD_eq_default _ _ (by rw [b64Alphabet_length]; omega)]
    decide

theorem b64Encode_ne_nil {bs : List Nat} (h : bs ≠ []) : b64Encode bs ≠ [] := by
  match bs with
  | [] => exact absurd rfl h
  | [a] => simp [b64Encode]
  | [a, b] => simp [b64Encode]
  | a :: b :: c :: rest => simp [b64Encode]

theorem b64Encode_length_ge {bs : List Nat} (h : bs ≠ []) :
    4 ≤ (b64Encode bs).length := by
  match bs with
  | [] => exact absurd rfl h
  | [a] => simp [b64Encode]
  | [a, b] => simp [b64Encode]
  | a :: b :: c :: rest => simp [b64Encode]

theorem b64Encode_not_ws : ∀ (bs : List Nat), ∀ c ∈ b64Encode bs, isB64Ws c = false
  | [], _, h => absurd h (by simp [b64Encode])
  | [a], c, h => by
    simp only [b64Encode, List.mem_cons, List.not_mem_nil, or_false] at h
    rcases h with rfl | rfl | rfl | rfl
    · exact b64Char_not_ws _
    · exact b64Char_not_ws _
    · decide
    · decide
  | [a, b], c, h => by
    simp only [b64Encode, List.mem_cons, List.not_mem_nil, or_false] at h
    rcases h with rfl | rfl | rfl | rfl
    · exact b64Char_not_ws _
    · exact b64Char_not_ws _
    · exact b64Char_not_ws _
    · decide
  | a :: b :: d :: rest, c, h => by
    simp only [b64Encode, List.mem_cons] at h
    rcases h with rfl | rfl | rfl | rfl | h
    · exact b64Char_not_ws _
    · exact b64Char_not_ws _
    · exact b64Char_not_ws _
    · exact b64Char_not_ws _
    · exact b64Encode_not_ws rest c h

theorem b64Encode_length_mod : ∀ (bs : List Nat), (b64Encode bs).length % 4 = 0
  | [] => rfl
  | [_] => by simp [b64Encode]
  | [_, _] => by simp [b64Encode]
  | a :: b :: c :: rest => by
    have ih := b64Encode_length_mod rest
    simp only [b64Encode, List.length_cons]
    omega

theorem stripB64Padding_two (c1 c2 : Char) :
    stripB64Padding [c1, c2, '=', '='] = [c1, c2] := rfl

theorem stripB64Padding_three (c1 c2 c3 : Char) (h3 : c3 ≠ '=') :
    stripB64Padding [c1, c2, c3, '='] = [c1, c2, c3] := by
  unfold stripB64Padding
  rw [if_pos (show ([c1, c2, c3, '='] : List Char).getLast? = some '=' from rfl),
    if_neg (show ¬ (([c1, c2, c3, '='] : List Char).dropLast.getLast? = some '=') from by
      show ¬ (some c3 = some '=')
      simp only [Option.some.injEq]
      exact h3)]
  rfl

theorem stripB64Padding_four (c1 c2 c3 c4 : Char) (h4 : c4 ≠ '=') :
    stripB64Padding [c1, c2, c3, c4] = [c1, c2, c3, c4] := by
  unfold stripB64Padding
  rw [if_neg (show ¬ (([c1, c2, c3, c4] : List Char).getLast? = some '=') from by
    show ¬ (some c4 = some '=')
    simp only [Option.some.injEq]
    exact h4)]

theorem stripB64Padding_cons4 (w x y z : Char) (ys : List Char) (h : 2 ≤ ys.length) :
    stripB64Padding (w :: x :: y :: z :: ys) = w :: x :: y :: z :: stripB64Padding ys := by
  have hys : ys ≠ [] := by
    intro h0
    subst h0
    simp at h
  have hdys : ys.dropLast ≠ [] := by
    intro h0
    have hl := congrArg List.length h0
    rw [List.length_dropLast] at hl
    simp only [List.length_nil] at hl
    omega
  obtain ⟨g, hg⟩ := Option.isSome_iff_exists.mp (List.getLast?_isSome.mpr hys)
  obtain ⟨g2, hg2⟩ := Option.isSome_iff_exists.mp (List.getLast?_isSome.mpr hdys)
  have h1 : (w :: x :: y :: z :: ys).getLast? = ys.getLast? := by
    show (([w, x, y, z] : List Char) ++ ys).getLast? = ys.getLast?
    rw [List.getLast?_append, hg]
    rfl
  have h2 : (w :: x :: y :: z :: ys).dropLast = w :: x :: y :: z :: ys.dropLast := by
    show (([w, x, y, z] : List Char) ++ ys).dropLast = [w, x, y, z] ++ ys.dropLast
    rw [List.dropLast_append_of_ne_nil _ hys]
  have h3 : (w :: x :: y :: z :: ys.dropLast).getLast? = ys.dropLast.getLast? := by
    show (([w, x, y, z] : List Char) ++ ys.dropLast).getLast? = ys.dropLast.getLast?
    rw [List.getLast?_append, hg2]
    rfl
  have h4 : (w :: x :: y :: z :: ys.dropLast).dropLast
      = w :: x :: y :: z :: ys.dropLast.dropLast := by
    show (([w, x, y, z] : List Char) ++ ys.dropLast).dropLast
      = [w, x, y, z] ++ ys.dropLast.dropLast
    rw [List.dropLast_append_of_ne_nil _ hdys]
  unfold stripB64Padding
  rw [h1, h2, h3, h4]
  by_cases c1 : ys.getLast? = some '='
  · by_cases c2 : ys.dropLast.getLast? = some '='
    · rw [if_pos c1, if_pos c2, if_pos c1, if_pos c2]
    · rw [if_pos c1, if_neg c2, if_pos c1, if_neg c2]
  · rw [if_neg c1, if_neg c1]

theorem b64DecodeRaw_strip_encode : ∀ (bs : List Nat), (∀ b ∈ bs, b < 256) →
    b64DecodeRaw (stripB64Padding (b64Encode bs)) = some bs
  | [], _ => rfl
  | [a], h => by
    have ha : a < 256 := h a (by simp)
    have h1 : a / 4 < 64 := by omega
    have h2 : a % 4 * 16 < 64 := by omega
    rw [show b64Encode [a] = [b64Char (a / 4), b64Char (a % 4 * 16), '=', '='] from rfl,
      stripB64Padding_two]
    simp only [b64DecodeRaw, b64Val_b64Char h1, b64Val_b64Char h2, bind,
      Option.bind_eq_bind, Option.some_bind, pure, Option.some.injEq,
      List.cons.injEq, and_true]
    omega
  | [a, b], h => by
    have ha : a < 256 := h a (by simp)
    have hb : b < 256 := h b (by simp)
    have h1 : a / 4 < 64 := by omega
    have h2 : a % 4 * 16 + b / 16 < 64 := by omega
    have h3 : b % 16 * 4 < 64 := by omega
    rw [show b64Encode [a, b] = [b64Char (a / 4), b64Char (a % 4 * 16 + b / 16),
        b64Char (b % 16 * 4), '='] from rfl,
      stripB64Padding_three _ _ _ (b64Char_ne_pad _)]
    simp only [b64DecodeRaw, b64Val_b64Char h1, b64Val_b64Char h2, b64Val_b64Char h3,
      bind, Option.bind_eq_bind, Option.some_bind, pure, Option.some.injEq,
      List.cons.injEq, and_true]
    omega
  | a :: b :: c :: rest, h => by
    have ha : a < 256 := h a (by simp)
    have hb : b < 256 := h b (by simp)
    have hc : c < 256 := h c (by simp)
    have h1 : a / 4 < 64 := by omega
    have h2 : a % 4 * 16 + b / 16 < 64 := by omega
    have h3 : b % 16 * 4 + c / 64 < 64 := by omega
    have h4 : c % 64 < 64 := by omega
    have e1 : a / 4 * 4 + (a % 4 * 16 + b / 16) / 16 = a := by omega
    have e2 : (a % 4 * 16 + b / 16) % 16 * 16 + (b % 16 * 4 + c / 64) / 4 = b := by omega
    have e3 : (b % 16 * 4 + c / 64) % 4 * 64 + c % 64 = c := by omega
    match rest with
    | [] =>
      rw [show b64Encode [a, b, c] = [b64Char (a / 4), b64Char (a % 4 * 16 + b / 16),
          b64Char (b % 16 * 4 + c / 64), b64Char (c % 64)] from rfl,
        stripB64Padding_four _ _ _ _ (b64Char_ne_pad _)]
      simp only [b64DecodeRaw, b64Val_b64Char h1, b64Val_b64Char h2, b64Val_b64Char h3,
        b64Val_b64Char h4, bind, Option.bind_eq_bind, Option.some_bind, pure,
        Option.some.injEq, List.cons.injEq, and_true]
      omega
    | r :: rest2 =>
      have hlen : 2 ≤ (b64Encode (r :: rest2)).length := by
        have := @b64Encode_length_ge (r :: rest2) (by simp)
        omega
      have hrec : b64DecodeRaw (stripB64Padding (b64Encode (r :: rest2)))
          = some (r :: rest2) :=
        b64DecodeRaw_strip_encode (r :: rest2)
          (fun x hx => h x (by simp only [List.mem_cons] at hx ⊢; tauto))
      rw [show b64Encode (a :: b :: c :: r :: rest2)
          = b64Char (a / 4) :: b64Char (a % 4 * 16 + b / 16) ::
            b64Char (b % 16 * 4 + c / 64) :: b64Char (c % 64)
            :: b64Encode (r :: rest2) from rfl,
        stripB64Padding_cons4 _ _ _ _ _ hlen]
      simp only [b64DecodeRaw, b64Val_b64Char h1, b64Val_b64Char h2, b64Val_b64Char h3,
        b64Val_b64Char h4, bind, Option.bind_eq_bind, Option.some_bind, hrec, pure,
        Option.some.injEq, List.cons.injEq]
      exact ⟨e1, e2, e3, trivial⟩

theorem atob_btoa {s t : String} (h : btoa s = some t) : atob t = some s := by
  unfold btoa at h
  split at h
  · next hall =>
    cases h
    have hall2 : ∀ c ∈ s.data, c.toNat < 256 := by simpa using hall
    have hbytes : ∀ b ∈ s.data.map Char.toNat, b < 256 := by
      intro b hb
      simp only [List.mem_map] at hb
      obtain ⟨c, hc, rfl⟩ := hb
      exact hall2 c hc
    have hfilter : (b64Encode (s.data.map Char.toNat)).filter (fun c => !(isB64Ws c))
        = b64Encode (s.data.map Char.toNat) := by
      rw [List.filter_eq_self]
      intro c hc
      rw [b64Encode_not_ws _ c hc]
      rfl
    show (b64DecodeRaw
        (if ((b64Encode (s.data.map Char.toNat)).filter (fun c => !(isB64Ws c))).length % 4 = 0
         then stripB64Padding
           ((b64Encode (s.data.map Char.toNat)).filter (fun c => !(isB64Ws c)))
         else (b64Encode (s.data.map Char.toNat)).filter (fun c => !(isB64Ws c)))).map
      (fun bs => (⟨bs.map Char.ofNat⟩ : String)) = some s
    rw [hfilter, if_pos (b64Encode_length_mod _), b64DecodeRaw_strip_encode _ hbytes]
    simp only [Option.map_some', List.map_map, Function.comp_def, Char.ofNat_toNat,
      List.map_id', Option.some.injEq]
  · exact Option.noConfusion h

/-! ## The JSON parser inverts the serializer -/

theorem isDigit_ne_of {c d : Char} (h : c.isDigit) (hd : ¬ d.isDigit) : c ≠ d :=
  fun he => hd (he ▸ h)

theorem jsonWeight_pos (j : Json) : 1 ≤ jsonWeight j := by
  cases j <;> simp [jsonWeight]

theorem serJson_head (j : Json) :
    ∃ c cs, serJson j = c :: cs ∧ c ≠ ']' ∧ c ≠ '}' := by
  cases j with
  | null => exact ⟨'n', _, rfl, by decide, by decide⟩
  | bool b =>
    cases b with
    | false => exact ⟨'f', _, rfl, by decide, by decide⟩
    | true => exact ⟨'t', _, rfl, by decide, by decide⟩
  | num m =>
    by_cases hm : m < 0
    · refine ⟨'-', natDigits m.natAbs, ?_, by decide, by decide⟩
      simp [serJson, serNum, hm]
    · cases h : natDigits m.natAbs with
      | nil => exact absurd h (natDigits_ne_nil _)
      | cons d ds =>
        have hd : d.isDigit := natDigits_all_isDigit m.natAbs d (by rw [h]; simp)
        refine ⟨d, ds, ?_, isDigit_ne_of hd (by decide), isDigit_ne_of hd (by decide)⟩
        simp [serJson, serNum, hm, h]
  | str s => exact ⟨'"', _, rfl, by decide, by decide⟩
  | arr items => exact ⟨'[', _, rfl, by decide, by decide⟩
  | obj fields => exact ⟨'{', _, rfl, by decide, by decide⟩

theorem takeWhile_dropWhile_append {α : Type} {p : α → Bool} :
    ∀ (xs ys : List α), (∀ x ∈ xs, p x) → (∀ c, ys.head? = some c → ¬ p c) →
      (xs ++ ys).takeWhile p = xs ∧ (xs ++ ys).dropWhile p = ys
  | [], ys, _, hy => by
    cases ys with
    | nil => simp
    | cons c ys2 =>
      have : ¬ p c = true := hy c rfl
      simp [List.takeWhile_cons, List.dropWhile_cons, this]
  | x :: xs2, ys, hx, hy => by
    have hpx : p x := hx x (by simp)
    have ih := takeWhile_dropWhile_append xs2 ys (fun a ha => hx a (by simp [ha])) hy
    simp [List.takeWhile_cons, List.dropWhile_cons, hpx, ih.1, ih.2]

theorem parseNat_natDigits (k : Nat) (rest : List Char)
    (hrest : ∀ c, rest.head? = some c → ¬ c.isDigit) :
    parseNat (natDigits k ++ rest) = some (k, rest) := by
  have h := takeWhile_dropWhile_append (natDigits k) rest (natDigits_all_isDigit k) hrest
  have hne : ((natDigits k ++ rest).takeWhile Char.isDigit).isEmpty = false := by
    rw [h.1]
    cases hk : natDigits k with
    | nil => exact absurd hk (natDigits_ne_nil k)
    | cons a as => rfl
  have hguard : ¬ ((natDigits k).headD '0' = '0' ∧ (natDigits k).length ≠ 1) := by
    intro hand
    by_cases hk0 : k = 0
    · subst hk0
      exact hand.2 rfl
    · cases hk : natDigits k with
      | nil => exact absurd hk (natDigits_ne_nil k)
      | cons a as =>
        have ha : a ≠ '0' := @natDigits_head_ne_zero k (by omega) a (by rw [hk]; rfl)
        rw [hk] at hand
        exact ha hand.1
  simp only [parseNat, hne, h.1, h.2, digitsVal_natDigits, Bool.false_eq_true,
    if_false]
  rw [if_neg hguard]
  rw [if_neg (by simp only [List.isEmpty_eq_true]; exact natDigits_ne_nil k)]

theorem hexDigitVal_hexDigit {d : Nat} (h : d < 16) : hexDigitVal (hexDigit d) = some d := by
  interval_cases d <;> decide

theorem parseEscU_chain (t : Nat) (ht : t < 32) (tl : List Char) :
    parseEscU1 ('0' :: '0' :: hexDigit (t / 16) :: hexDigit (t % 16) :: tl) =
      (parseStrBody tl).map (fun p => (⟨Char.ofNat t :: p.1.data⟩, p.2)) := by
  have hd0 : hexDigitVal '0' = some 0 := by decide
  have hd1 : hexDigitVal (hexDigit (t / 16)) = some (t / 16) := hexDigitVal_hexDigit (by omega)
  have hd2 : hexDigitVal (hexDigit (t % 16)) = some (t % 16) := hexDigitVal_hexDigit (by omega)
  have hv : ((0 * 16 + 0) * 16 + t / 16) * 16 + t % 16 = t := by omega
  have hsur : ¬ (55296 ≤ t ∧ t < 57344) := by omega
  simp only [parseEscU1, parseEscU2, parseEscU3, parseEscU4, hd0, hd1, hd2,
    bind, Option.bind_eq_bind, Option.some_bind, hv, if_neg hsur]
  cases hp : parseStrBody tl with
  | none => rfl
  | some p =>
    obtain ⟨s, r⟩ := p
    rfl

theorem parseStrBody_escape : ∀ (cs : List Char) (rest : List Char),
    parseStrBody ((cs.map escChar).flatten ++ '"' :: rest) = some (⟨cs⟩, rest)
  | [], rest => by simp [parseStrBody]
  | c :: cs2, rest => by
    have ih := parseStrBody_escape cs2 rest
    by_cases h1 : c = '"'
    · subst h1
      simp [escChar, parseStrBody, parseEsc, unescChar, ih, bind, pure]
    · by_cases h2 : c = '\\'
      · subst h2
        simp [escChar, parseStrBody, parseEsc, unescChar, ih, bind, pure]
      · by_cases h3 : c = '\x08'
        · subst h3
          simp [escChar, parseStrBody, parseEsc, unescChar, ih, bind, pure]
        · by_cases h4 : c = '\t'
          · subst h4
            simp [escChar, parseStrBody, parseEsc, unescChar, ih, bind, pure]
          · by_cases h5 : c = '\n'
            · subst h5
              simp [escChar, parseStrBody, parseEsc, unescChar, ih, bind, pure]
            · by_cases h6 : c = '\x0c'
              · subst h6
                simp [escChar, parseStrBody, parseEsc, unescChar, ih, bind, pure]
              · by_cases h7 : c = '\r'
                · subst h7
                  simp [escChar, parseStrBody, parseEsc, unescChar, ih, bind, pure]
                · by_cases h8 : c.toNat < 32
                  · have hesc : escChar c = ['\\', 'u', '0', '0',
                        hexDigit (c.toNat / 16), hexDigit (c.toNat % 16)] := by
                      simp [escChar, h1, h2, h3, h4, h5, h6, h7, h8]
                    have hps : ∀ tl : List Char, parseStrBody ('\\' :: tl) = parseEsc tl := by
                      intro tl
                      simp [parseStrBody]
                    have hpe : ∀ tl : List Char, parseEsc ('u' :: tl) = parseEscU1 tl := by
                      intro tl
                      simp [parseEsc]
                    rw [List.map_cons, List.flatten_cons, hesc]
                    simp only [List.cons_append, List.nil_append, hps, hpe,
                      parseEscU_chain c.toNat h8, ih, Option.map_some', Char.ofNat_toNat]
                  · simp [escChar, h1, h2, h3, h4, h5, h6, h7, h8, parseStrBody, ih,
                      bind, pure]

theorem parseStrBody_serStr (k : String) (rest : List Char) :
    parseStrBody ((k.data.map escChar).flatten ++ '"' :: rest) = some (k, rest) :=
  parseStrBody_escape k.data rest

theorem parse_ser_master : ∀ n : Nat,
    (∀ j : Json, jsonWeight j ≤ n → ∀ fuel rest, jsonWeight j ≤ fuel →
      (∀ c, rest.head? = some c → ¬ c.isDigit) →
      parseVal fuel (serJson j ++ rest) = some (j, rest)) ∧
    (∀ items : List Json, itemsWeight items ≤ n → items ≠ [] → ∀ fuel rest,
      itemsWeight items ≤ fuel →
      parseItems fuel (serItems items ++ ']' :: rest) = some (items, rest)) ∧
    (∀ fields : List (String × Json), fieldsWeight fields ≤ n → fields ≠ [] →
      ∀ fuel rest, fieldsWeight fields ≤ fuel →
      parseFields fuel (serFields fields ++ '}' :: rest) = some (fields, rest)) := by
  intro n
  induction n using Nat.strong_induction_on with
  | _ n ih =>
    refine ⟨?_, ?_, ?_⟩
    · intro j hjn fuel rest hjf hrest
      cases fuel with
      | zero => have := jsonWeight_pos j; omega
      | succ f =>
        cases j with
        | null => simp [serJson, parseVal]
        | bool b => cases b <;> simp [serJson, parseVal]
        | num m =>
          by_cases hm : m < 0
          · have hser : serJson (.num m) = '-' :: natDigits m.natAbs := by
              simp [serJson, serNum, hm]
            rw [hser, List.cons_append]
            simp only [parseVal]
            rw [if_neg (by decide), if_neg (by decide), if_neg (by decide),
              if_neg (by decide), if_neg (by decide), if_neg (by decide)]
            simp only [if_true]
            rw [parseNat_natDigits _ _ hrest]
            have hval : (-(m.natAbs : Int)) = m := by omega
            simp only [Option.map_some']
            rw [hval]
          · obtain ⟨d, ds, hds⟩ : ∃ d ds, natDigits m.natAbs = d :: ds := by
              cases h : natDigits m.natAbs with
              | nil => exact absurd h (natDigits_ne_nil _)
              | cons d ds => exact ⟨d, ds, rfl⟩
            have hd : d.isDigit := natDigits_all_isDigit m.natAbs d (by rw [hds]; simp)
            have hser : serJson (.num m) = natDigits m.natAbs := by
              simp [serJson, serNum, hm]
            rw [hser, hds, List.cons_append]
            simp only [parseVal]
            rw [if_neg (isDigit_ne_of hd (by decide)), if_neg (isDigit_ne_of hd (by decide)),
              if_neg (isDigit_ne_of hd (by decide)), if_neg (isDigit_ne_of hd (by decide)),
              if_neg (isDigit_ne_of hd (by decide)), if_neg (isDigit_ne_of hd (by decide)),
              if_neg (isDigit_ne_of hd (by decide))]
            rw [← List.cons_append, ← hds, parseNat_natDigits _ _ hrest]
            have hval : ((m.natAbs : Int)) = m := by omega
            simp only [Option.map_some']
            rw [hval]
        | str s =>
          have hser : serJson (.str s) ++ rest =
              '"' :: ((s.data.map escChar).flatten ++ '"' :: rest) := by
            simp [serJson, serStr]
          rw [hser]
          simp only [parseVal]
          rw [if_neg (by decide), if_neg (by decide), if_neg (by decide)]
          simp only [if_true]
          rw [parseStrBody_serStr]
          simp
        | arr items =>
          cases items with
          | nil => simp [serJson, serItems, parseVal]
          | cons j tl =>
            have hn1 : 1 + itemsWeight (j :: tl) ≤ n := by
              simpa [jsonWeight] using hjn
            have hf1 : 1 + itemsWeight (j :: tl) ≤ f + 1 := by
              simpa [jsonWeight] using hjf
            have hjw := jsonWeight_pos j
            obtain ⟨c2, cs2, hc2, hne1, _⟩ := serJson_head j
            have hexp : serItems (j :: tl) ++ ']' :: rest =
                c2 :: ((serItems (j :: tl)).tail ++ ']' :: rest) := by
              cases tl with
              | nil => simp [serItems, hc2]
              | cons j2 tl2 => simp [serItems, hc2]
            have hser : serJson (.arr (j :: tl)) ++ rest =
                '[' :: (serItems (j :: tl) ++ ']' :: rest) := by
              simp [serJson]
            have hitems : parseItems f (serItems (j :: tl) ++ ']' :: rest) =
                some (j :: tl, rest) :=
              (ih (n - 1) (by simp [itemsWeight] at hn1; omega)).2.1 (j :: tl)
                (by omega) (by simp) f rest (by omega)
            rw [hser]
            simp only [parseVal]
            rw [if_neg (by decide), if_neg (by decide), if_neg (by decide),
              if_neg (by decide)]
            simp only [if_true]
            rw [hexp]
            rw [if_neg (by
              simp only [List.head?_cons, Option.some.injEq]
              exact fun he => absurd he hne1)]
            rw [← hexp, hitems]
            simp
        | obj fields =>
          cases fields with
          | nil => simp [serJson, serFields, parseVal]
          | cons f0 tl =>
            obtain ⟨k, v⟩ := f0
            have hn1 : 1 + fieldsWeight ((k, v) :: tl) ≤ n := by
              simpa [jsonWeight] using hjn
            have hf1 : 1 + fieldsWeight ((k, v) :: tl) ≤ f + 1 := by
              simpa [jsonWeight] using hjf
            have hjw := jsonWeight_pos v
            have hexp : serFields ((k, v) :: tl) ++ '}' :: rest =
                '"' :: ((serFields ((k, v) :: tl)).tail ++ '}' :: rest) := by
              cases tl with
              | nil => simp [serFields, serStr]
              | cons f2 tl2 => simp [serFields, serStr]
            have hser : serJson (.obj ((k, v) :: tl)) ++ rest =
                '{' :: (serFields ((k, v) :: tl) ++ '}' :: rest) := by
              simp [serJson]
            have hfields : parseFields f (serFields ((k, v) :: tl) ++ '}' :: rest) =
                some ((k, v) :: tl, rest) :=
              (ih (n - 1) (by simp [fieldsWeight] at hn1; omega)).2.2 ((k, v) :: tl)
                (by omega) (by simp) f rest (by omega)
            rw [hser]
            simp only [parseVal]
            rw [if_neg (by decide), if_neg (by decide), if_neg (by decide),
              if_neg (by decide), if_neg (by decide)]
            simp only [if_true]
            rw [hexp]
            simp only [List.head?_cons]
            rw [if_neg (by decide)]
            rw [← hexp, hfields]
            simp
    · intro items hin hne fuel rest hif
      cases items with
      | nil => exact absurd rfl hne
      | cons j tl =>
        have hjw := jsonWeight_pos j
        cases fuel with
        | zero => simp [itemsWeight] at hif
        | succ f =>
          have hiw : 1 + jsonWeight j + itemsWeight tl ≤ f + 1 := by
            simpa [itemsWeight] using hif
          have hiwn : 1 + jsonWeight j + itemsWeight tl ≤ n := by
            simpa [itemsWeight] using hin
          cases tl with
          | nil =>
            have hval : parseVal f (serJson j ++ ']' :: rest) = some (j, ']' :: rest) :=
              (ih (n - 1) (by omega)).1 j (by omega) f (']' :: rest) (by omega)
                (by intro c hc; simp at hc; subst hc; decide)
            simp only [serItems, parseItems, bind, Option.bind_eq_bind]
            rw [hval]
            simp [pure]
          | cons j2 tl2 =>
            have hval : parseVal f
                (serJson j ++ ',' :: (serItems (j2 :: tl2) ++ ']' :: rest)) =
                some (j, ',' :: (serItems (j2 :: tl2) ++ ']' :: rest)) :=
              (ih (n - 1) (by omega)).1 j (by omega) f _ (by omega)
                (by intro c hc; simp at hc; subst hc; decide)
            have hrec : parseItems f (serItems (j2 :: tl2) ++ ']' :: rest) =
                some (j2 :: tl2, rest) :=
              (ih (n - 1) (by omega)).2.1 (j2 :: tl2)
                (by simp [itemsWeight] at hiwn ⊢; omega) (by simp) f rest
                (by simp [itemsWeight] at hiw ⊢; omega)
            have hexp2 : serItems (j :: j2 :: tl2) ++ ']' :: rest =
                serJson j ++ ',' :: (serItems (j2 :: tl2) ++ ']' :: rest) := by
              simp [serItems]
            rw [hexp2]
            simp only [parseItems, bind, Option.bind_eq_bind]
            rw [hval]
            simp [hrec, pure]
    · intro fields hfn hne fuel rest hff
      cases fields with
      | nil => exact absurd rfl hne
      | cons f0 tl =>
        obtain ⟨k, v⟩ := f0
        have hjw := jsonWeight_pos v
        cases fuel with
        | zero => simp [fieldsWeight] at hff
        | succ f =>
          have hfw : 1 + jsonWeight v + fieldsWeight tl ≤ f + 1 := by
            simpa [fieldsWeight] using hff
          have hfwn : 1 + jsonWeight v + fieldsWeight tl ≤ n := by
            simpa [fieldsWeight] using hfn
          cases tl with
          | nil =>
            have hval : parseVal f (serJson v ++ '}' :: rest) = some (v, '}' :: rest) :=
              (ih (n - 1) (by omega)).1 v (by omega) f ('}' :: rest) (by omega)
                (by intro c hc; simp at hc; subst hc; decide)
            have hexp3 : serFields [(k, v)] ++ '}' :: rest =
                '"' :: ((k.data.map escChar).flatten ++ '"' ::
                  (':' :: (serJson v ++ '}' :: rest))) := by
              simp [serFields, serStr]
            rw [hexp3]
            simp only [parseFields]
            simp [parseStrBody_serStr, hval, bind, pure]
          | cons f2 tl2 =>
            have hval : parseVal f
                (serJson v ++ ',' :: (serFields (f2 :: tl2) ++ '}' :: rest)) =
                some (v, ',' :: (serFields (f2 :: tl2) ++ '}' :: rest)) :=
              (ih (n - 1) (by omega)).1 v (by omega) f _ (by omega)
                (by intro c hc; simp at hc; subst hc; decide)
            have hrec : parseFields f (serFields (f2 :: tl2) ++ '}' :: rest) =
                some (f2 :: tl2, rest) :=
              (ih (n - 1) (by omega)).2.2 (f2 :: tl2)
                (by simp [fieldsWeight] at hfwn ⊢; omega) (by simp) f rest
                (by simp [fieldsWeight] at hfw ⊢; omega)
            have hexp4 : serFields ((k, v) :: f2 :: tl2) ++ '}' :: rest =
                '"' :: ((k.data.map escChar).flatten ++ '"' ::
                  (':' :: (serJson v ++ ',' :: (serFields (f2 :: tl2) ++ '}' :: rest)))) := by
              simp [serFields, serStr]
            rw [hexp4]
            simp only [parseFields]
            simp [parseStrBody_serStr, hval, hrec, bind, pure]

theorem weight_le_ser : ∀ n : Nat,
    (∀ j : Json, jsonWeight j ≤ n → jsonWeight j ≤ (serJson j).length) ∧
    (∀ items : List Json, itemsWeight items ≤ n →
      itemsWeight items ≤ (serItems items).length + 1) ∧
    (∀ fields : List (String × Json), fieldsWeight fields ≤ n →
      fieldsWeight fields ≤ (serFields fields).length + 1) := by
  intro n
  induction n using Nat.strong_induction_on with
  | _ n ih =>
    refine ⟨?_, ?_, ?_⟩
    · intro j hjn
      cases j with
      | null => simp [jsonWeight, serJson]
      | bool b => cases b <;> simp [jsonWeight, serJson]
      | num m =>
        have h1 : serNum m ≠ [] := by
          unfold serNum
          split
          · simp
          · exact natDigits_ne_nil _
        have h2 : 1 ≤ (serNum m).length := by
          cases hsn : serNum m with
          | nil => exact absurd hsn h1
          | cons a as => simp
        simpa [jsonWeight, serJson] using h2
      | str s => simp [jsonWeight, serStr, serJson]
      | arr items =>
        cases items with
        | nil => simp [jsonWeight, itemsWeight, serJson, serItems]
        | cons j tl =>
          have hjw := jsonWeight_pos j
          have hn1 : 1 + itemsWeight (j :: tl) ≤ n := by
            simpa [jsonWeight] using hjn
          have hit := (ih (n - 1) (by simp [itemsWeight] at hn1; omega)).2.1
            (j :: tl) (by omega)
          simp only [jsonWeight, serJson, List.length_cons, List.length_append]
          simp at hit ⊢
          omega
      | obj fields =>
        cases fields with
        | nil => simp [jsonWeight, fieldsWeight, serJson, serFields]
        | cons f0 tl =>
          have hjw := jsonWeight_pos f0.2
          have hn1 : 1 + fieldsWeight (f0 :: tl) ≤ n := by
            simpa [jsonWeight] using hjn
          have hit := (ih (n - 1) (by simp [fieldsWeight] at hn1; omega)).2.2
            (f0 :: tl) (by omega)
          simp only [jsonWeight, serJson, List.length_cons, List.length_append]
          simp at hit ⊢
          omega
    · intro items hin
      cases items with
      | nil => simp [itemsWeight]
      | cons j tl =>
        have hjw := jsonWeight_pos j
        have hiw : 1 + jsonWeight j + itemsWeight tl ≤ n := by
          simpa [itemsWeight] using hin
        have hv := (ih (n - 1) (by omega)).1 j (by omega)
        cases tl with
        | nil => simp [itemsWeight, serItems] at hv ⊢; omega
        | cons j2 tl2 =>
          have ht := (ih (n - 1) (by omega)).2.1 (j2 :: tl2)
            (by simp [itemsWeight] at hiw ⊢; omega)
          simp [itemsWeight, serItems] at hv ht ⊢
          omega
    · intro fields hfn
      cases fields with
      | nil => simp [fieldsWeight]
      | cons f0 tl =>
        obtain ⟨k, v⟩ := f0
        have hjw := jsonWeight_pos v
        have hfw : 1 + jsonWeight v + fieldsWeight tl ≤ n := by
          simpa [fieldsWeight] using hfn
        have hv := (ih (n - 1) (by omega)).1 v (by omega)
        cases tl with
        | nil => simp [fieldsWeight, serFields] at hv ⊢; omega
        | cons f2 tl2 =>
          have ht := (ih (n - 1) (by omega)).2.2 (f2 :: tl2)
            (by simp [fieldsWeight] at hfw ⊢; omega)
          simp [fieldsWeight, serFields] at hv ht ⊢
          omega

theorem jsonParse_stringify (j : Json) : jsonParse (jsonStringify j) = some j := by
  have hw : jsonWeight j ≤ (serJson j).length + 1 := by
    have := (weight_le_ser (jsonWeight j)).1 j le_rfl
    omega
  have h := (parse_ser_master (jsonWeight j)).1 j le_rfl ((serJson j).length + 1) []
    hw (by intro c hc; simp at hc)
  rw [List.append_nil] at h
  simp [jsonParse, jsonStringify, h]

theorem requirementOfJson_requirementJson (r : PaymentRequirement) :
    requirementOfJson (requirementJson r) = r := rfl

theorem challengeOfJson_challengeJson (c : PaymentRequiredBody) :
    challengeOfJson (challengeJson c) = c := by
  have hmap : requirementOfJson ∘ requirementJson = id :=
    funext fun r => requirementOfJson_requirementJson r
  cases c with
  | mk v accepts resource error =>
    simp [challengeOfJson, challengeJson, jsField, arrField, numField, strField,
      resourceOfJson, resourceJson, List.map_map, hmap]

theorem encodeChallenge_ne_empty {c : PaymentRequiredBody} {s : String}
    (h : encodeChallenge c = some s) : s ≠ "" := by
  unfold encodeChallenge btoa at h
  split at h
  · cases h
    intro h0
    have hd := congrArg String.data h0
    obtain ⟨d, ds, hds, _, _⟩ := serJson_head (challengeJson c)
    have hmap : (jsonStringify (challengeJson c)).data.map Char.toNat ≠ [] := by
      rw [show (jsonStringify (challengeJson c)).data = serJson (challengeJson c) from rfl,
        hds]
      simp
    exact b64Encode_ne_nil hmap (by simpa using hd)
  · exact Option.noConfusion h

theorem decodePaymentRequired_encode {c : PaymentRequiredBody} {s : String}
    (h : encodeChallenge c = some s) (resp : Response)
    (hr : resp.paymentRequired = some s) :
    decodePaymentRequired resp = .ok (challengeJson c) := by
  simp only [decodePaymentRequired, hr]
  rw [if_neg (encodeChallenge_ne_empty h)]
  simp only [atob_btoa h, jsonParse_stringify]

/-! ## Properties of the nonce encoding -/

theorem hexDigit_inj : ∀ a < 16, ∀ b < 16, hexDigit a = hexDigit b → a = b := by decide

theorem byteHex_inj {a b : Nat} (ha : a < 256) (hb : b < 256)
    (h : byteHex a = byteHex b) : a = b := by
  simp only [byteHex, List.cons.injEq, and_true] at h
  have h1 := hexDigit_inj (a / 16) (by omega) (b / 16) (by omega) h.1
  have h2 := hexDigit_inj (a % 16) (by omega) (b % 16) (by omega) h.2
  omega

theorem hexFlatten_inj : ∀ (xs ys : List Nat), (∀ x ∈ xs, x < 256) → (∀ y ∈ ys, y < 256) →
    (xs.map byteHex).flatten = (ys.map byteHex).flatten → xs = ys
  | [], [], _, _, _ => rfl
  | [], y :: ys, _, _, h => by simp [byteHex] at h
  | x :: xs, [], _, _, h => by simp [byteHex] at h
  | x :: xs, y :: ys, hx, hy, h => by
    simp only [List.map_cons, List.flatten_cons, byteHex, List.cons_append,
      List.nil_append, List.cons.injEq] at h
    have hxy : x = y := by
      have h1 := hexDigit_inj (x / 16) (by have := hx x (by simp); omega)
        (y / 16) (by have := hy y (by simp); omega) h.1
      have h2 := hexDigit_inj (x % 16) (by have := hx x (by simp); omega)
        (y % 16) (by have := hy y (by simp); omega) h.2.1
      omega
    have htl : xs = ys := hexFlatten_inj xs ys
      (fun a ha => hx a (by simp [ha])) (fun a ha => hy a (by simp [ha]))
      (by simpa [byteHex] using h.2.2)
    rw [hxy, htl]

theorem randomNonce_inj {b1 b2 : List Nat}
    (h1 : ∀ x ∈ b1, x < 256) (h2 : ∀ x ∈ b2, x < 256)
    (h : randomNonce b1 = randomNonce b2) : b1 = b2 := by
  have hdata : (randomNonce b1).data = (randomNonce b2).data := by rw [h]
  simp only [randomNonce, String.data_append] at hdata
  have : (b1.map byteHex).flatten = (b2.map byteHex).flatten := by
    simpa using hdata
  exact hexFlatten_inj b1 b2 h1 h2 this

theorem hexFlatten_length (bs : List Nat) :
    ((bs.map byteHex).flatten).length = 2 * bs.length := by
  induction bs with
  | nil => rfl
  | cons b tl ih => simp [byteHex, ih]; omega

theorem randomNonce_format (bs : List Nat) (hlen : bs.length = 32)
    (hb : ∀ x ∈ bs, x < 256) :
    (randomNonce bs).length = 66 ∧
    (randomNonce bs).data.take 2 = ['0', 'x'] ∧
    ∀ c ∈ (randomNonce bs).data.drop 2, c ∈ "0123456789abcdef".data := by
  have hdata : (randomNonce bs).data = '0' :: 'x' :: (bs.map byteHex).flatten := by
    simp [randomNonce, String.data_append]
  refine ⟨?_, ?_, ?_⟩
  · show (randomNonce bs).data.length = 66
    have hfl := hexFlatten_length bs
    rw [hdata]
    simp only [List.length_cons]
    omega
  · rw [hdata]; rfl
  · rw [hdata]
    intro c hc
    simp only [List.drop_succ_cons, List.drop_zero] at hc
    simp only [List.mem_flatten, List.mem_map] at hc
    obtain ⟨l, ⟨b, hbmem, rfl⟩, hcl⟩ := hc
    have hb256 := hb b hbmem
    simp only [byteHex, List.mem_cons, List.mem_singleton] at hcl
    have hdig : ∀ d : Nat, d < 16 → hexDigit d ∈ "0123456789abcdef".data := by decide
    rcases hcl with rfl | rfl | h
    · exact hdig _ (by omega)
    · exact hdig _ (by omega)
    · simp at h

/-! ## Properties of the network parser -/

theorem splitOnChar_no_sep {sep : Char} : ∀ (cs : List Char), (∀ c ∈ cs, c ≠ sep) →
    splitOnChar sep cs = [cs]
  | [], _ => rfl
  | c :: rest, h => by
    have hc : c ≠ sep := h c (by simp)
    have ih := splitOnChar_no_sep rest (fun a ha => h a (by simp [ha]))
    simp [splitOnChar, hc, ih]

theorem splitOnChar_once {sep : Char} : ∀ (l1 l2 : List Char), (∀ c ∈ l1, c ≠ sep) →
    splitOnChar sep (l1 ++ sep :: l2) = l1 :: splitOnChar sep l2
  | [], l2, _ => by simp [splitOnChar]
  | c :: l1, l2, h => by
    have hc : c ≠ sep := h c (by simp)
    have ih := splitOnChar_once l1 l2 (fun a ha => h a (by simp [ha]))
    simp only [List.cons_append, splitOnChar, if_neg hc, List.append_eq]
    rw [ih]

theorem isDigit_not_ws {c : Char} (h : c.isDigit) :
    ¬ (c = ' ' ∨ c = '\t' ∨ c = '\n' ∨ c = '\r') := by
  rintro (rfl | rfl | rfl | rfl) <;> exact absurd h (by decide)

theorem jsParseInt_digits (ds : String) (hne : ds.data ≠ [])
    (hd : ∀ c ∈ ds.data, c.isDigit) :
    jsParseInt ds = some ((digitsVal ds.data : Int)) := by
  obtain ⟨d, rest, hds⟩ : ∃ d rest, ds.data = d :: rest := by
    cases h : ds.data with
    | nil => exact absurd h hne
    | cons d rest => exact ⟨d, rest, rfl⟩
  have hdd : d.isDigit := hd d (by rw [hds]; simp)
  have hdrop : (d :: rest).dropWhile (fun c => c = ' ' ∨ c = '\t' ∨ c = '\n' ∨ c = '\r')
      = d :: rest := by
    rw [List.dropWhile_cons]
    simp only [decide_eq_true_eq]
    rw [if_neg (isDigit_not_ws hdd)]
  have htake : (d :: rest).takeWhile Char.isDigit = d :: rest := by
    have h2 := takeWhile_dropWhile_append (d :: rest) [] (hds ▸ hd)
      (by intro c hc; simp at hc)
    rw [List.append_nil] at h2
    exact h2.1
  have hne2 : ((d :: rest).takeWhile Char.isDigit).isEmpty = false := by
    rw [htake]; rfl
  have hd1 : ¬ ((some d : Option Char) = some '-') := by
    simp only [Option.some.injEq]
    exact isDigit_ne_of hdd (by decide)
  have hd2 : ¬ ((some d : Option Char) = some '+') := by
    simp only [Option.some.injEq]
    exact isDigit_ne_of hdd (by decide)
  simp only [jsParseInt, hds, hdrop, List.head?_cons]
  rw [if_neg hd1, if_neg hd2]
  simp [leadingInt, hne2, htake]

theorem parseChainId_eip155 (ds : String) (hne : ds.data ≠ [])
    (hd : ∀ c ∈ ds.data, c.isDigit) :
    parseChainId ("eip155:" ++ ds) = .ok (some ((digitsVal ds.data : Int))) := by
  have hnosep : ∀ c ∈ ds.data, c ≠ ':' := fun c hc =>
    isDigit_ne_of (hd c hc) (by decide)
  have hdata : ("eip155:" ++ ds).data = "eip155".data ++ ':' :: ds.data := by
    rw [String.data_append]; rfl
  have hsplit : splitOnChar ':' ("eip155:" ++ ds).data
      = ["eip155".data, ds.data] := by
    rw [hdata, splitOnChar_once "eip155".data ds.data (by decide),
      splitOnChar_no_sep ds.data hnosep]
  unfold parseChainId
  rw [hsplit]
  rw [if_neg (by simp)]
  have : (⟨ds.data⟩ : String) = ds := rfl
  simp [this, jsParseInt_digits ds hne hd]

/-! ## Characterizations of `buildPaymentHeader` -/

theorem parseChainId_error_iff (network : String) :
    parseChainId network =
        .error (paymentRequiredError ("Unsupported network format: " ++ network) none) ↔
      ¬ ((splitOnChar ':' network.data).length = 2 ∧
         (splitOnChar ':' network.data).headD [] = "eip155".data) := by
  unfold parseChainId
  by_cases hcond : (splitOnChar ':' network.data).length ≠ 2 ∨
      (splitOnChar ':' network.data).headD [] ≠ "eip155".data
  · rw [if_pos hcond]
    simp only [eq_self_iff_true, true_iff]
    intro hand
    rcases hcond with hc | hc
    · exact hc hand.1
    · exact hc hand.2
  · rw [if_neg hcond]
    push_neg at hcond
    constructor
    · intro h
      exact absurd h (by simp)
    · intro h
      exact absurd ⟨hcond.1, hcond.2⟩ h

theorem buildPaymentHeader_network_error {req : PaymentRequirement} {e : DenScopeError}
    (config : X402Config) (res : ResourceInfo) (now : Nat) (nb : List Nat)
    (hc : parseChainId req.network = .error e) :
    buildPaymentHeader config req res now nb = .error (.den e) := by
  unfold buildPaymentHeader
  rw [hc]
  rfl

theorem buildPaymentHeader_ne_den {req : PaymentRequirement} {cid : Option Int}
    (config : X402Config) (res : ResourceInfo) (now : Nat) (nb : List Nat)
    (hc : parseChainId req.network = .ok cid) (e : DenScopeError) :
    buildPaymentHeader config req res now nb ≠ .error (.den e) := by
  unfold buildPaymentHeader
  rw [hc]
  simp only [Except.mapError, bind, Except.bind]
  cases hbv : jsBigInt req.amount with
  | none => simp
  | some v =>
    cases hsig : config.account.signTypedData (SignRequest.mk
        (Eip712Domain.mk req.extra.name req.extra.version cid req.asset)
        EIP3009_TYPES "TransferWithAuthorization"
        (AuthMessage.mk config.account.address req.payTo v 0
          (now + SIGNATURE_VALIDITY_SECONDS) (randomNonce nb))) with
    | error se => simp [hsig]
    | ok sig =>
      simp only [hsig]
      cases hb : btoa (jsonStringify (paymentEnvelope config req res sig
          (now + SIGNATURE_VALIDITY_SECONDS) (randomNonce nb))) with
      | none => simp [hb]
      | some out => simp [hb]

theorem buildPaymentHeader_eq (config : X402Config) (req : PaymentRequirement)
    (res : ResourceInfo) (now : Nat) (nb : List Nat) (cid : Option Int) (v : Int)
    (sig : String)
    (hc : parseChainId req.network = .ok cid)
    (hv : jsBigInt req.amount = some v)
    (hs : config.account.signTypedData (SignRequest.mk
        (Eip712Domain.mk req.extra.name req.extra.version cid req.asset)
        EIP3009_TYPES "TransferWithAuthorization"
        (AuthMessage.mk config.account.address req.payTo v 0
          (now + SIGNATURE_VALIDITY_SECONDS) (randomNonce nb))) = .ok sig) :
    buildPaymentHeader config req res now nb =
      match btoa (jsonStringify (paymentEnvelope config req res sig
          (now + SIGNATURE_VALIDITY_SECONDS) (randomNonce nb))) with
      | none => .error (.js .invalidCharacterError)
      | some header => .ok header := by
  unfold buildPaymentHeader
  rw [hc]
  simp only [Except.mapError, bind, Except.bind, hv, hs]

/-! ## The claims -/

/-- Counterexample to C5 as frozen: the empty string is a present header
value that is valid base64 (of the empty byte sequence, which is not valid
JSON), yet decoding fails with the missing-challenge error rather than the
malformed-challenge one: the source tests the header with JavaScript
truthiness (`!header`), which conflates an absent header with a present
empty one. -/
theorem empty_header_counterexample :
    atob "" = some "" ∧
    jsonParse "" = none ∧
    decodePaymentRequired ⟨402, some "", .null⟩ =
      .error (paymentRequiredError "402 response missing PAYMENT-REQUIRED header" none) ∧
    "402 response missing PAYMENT-REQUIRED header" ≠
      "Failed to decode PAYMENT-REQUIRED header" :=
  ⟨rfl, rfl, rfl, by decide⟩

/-- **C5** (amended): the decoder tests the challenge header with JavaScript
truthiness, so an absent and a present-but-empty header both fail with the
missing-challenge error; a non-empty header value that is not valid
(forgiving) base64 fails with the malformed-challenge error; every non-empty
header value that is valid base64 of JSON text accepted by the wire-grammar
parser decodes to the parsed challenge with no semantic validation of the
contents; and encoding a challenge and decoding it round-trips to an equal
structure. -/
theorem decodePaymentRequired_spec :
    (∀ r : Response, r.paymentRequired = none ∨ r.paymentRequired = some "" →
      decodePaymentRequired r =
        .error (paymentRequiredError "402 response missing PAYMENT-REQUIRED header" none)) ∧
    (∀ (r : Response) (h : String), r.paymentRequired = some h → h ≠ "" →
      atob h = none →
      decodePaymentRequired r =
        .error (paymentRequiredError "Failed to decode PAYMENT-REQUIRED header" none)) ∧
    (∀ (r : Response) (h s : String) (j : Json), r.paymentRequired = some h → h ≠ "" →
      atob h = some s → jsonParse s = some j →
      decodePaymentRequired r = .ok j) ∧
    (∀ (c : PaymentRequiredBody) (s : String) (r : Response),
      encodeChallenge c = some s → r.paymentRequired = some s →
      decodePaymentRequired r = .ok (challengeJson c) ∧
      challengeOfJson (challengeJson c) = c) := by
  refine ⟨?_, ?_, ?_, ?_⟩
  · intro r hr
    rcases hr with hr | hr
    · simp only [decodePaymentRequired, hr]
    · simp only [decodePaymentRequired, hr]
      simp only [if_true]
  · intro r h hr hne hb
    simp only [decodePaymentRequired, hr]
    rw [if_neg hne]
    simp only [hb]
  · intro r h s j hr hne hb hj
    simp only [decodePaymentRequired, hr]
    rw [if_neg hne]
    simp only [hb, hj]
  · intro c s r he hr
    exact ⟨decodePaymentRequired_encode he r hr, challengeOfJson_challengeJson c⟩

set_option maxRecDepth 100000 in
/-- Witness for C5: the sample challenge encodes and decodes back to itself,
through real base64 and JSON codecs. -/
theorem decodePaymentRequired_spec_witness :
    (encodeChallenge sampleChallenge =
      some ((encodeChallenge sampleChallenge).getD "")) ∧
    decodePaymentRequired
        ⟨402, some ((encodeChallenge sampleChallenge).getD ""), Json.null⟩ =
      .ok (challengeJson sampleChallenge) ∧
    challengeOfJson (challengeJson sampleChallenge) = sampleChallenge :=
  have h := decodePaymentRequired_spec.2.2.2 sampleChallenge
    ((encodeChallenge sampleChallenge).getD "")
    ⟨402, some ((encodeChallenge sampleChallenge).getD ""), Json.null⟩ (by rfl) rfl
  ⟨by rfl, h.1, h.2⟩

/-- **C3**: the nonce encoding is injective on the 32 random bytes drawn per
invocation: two invocations that consume distinct 32-byte random values
always produce distinct nonce strings (so with a cryptographically secure
random source, nonces are never shared between calls). -/
theorem randomNonce_fresh_injective (b1 b2 : List Nat)
    (_h1 : b1.length = 32) (_h2 : b2.length = 32)
    (hb1 : ∀ x ∈ b1, x < 256) (hb2 : ∀ x ∈ b2, x < 256)
    (hne : b1 ≠ b2) : randomNonce b1 ≠ randomNonce b2 :=
  fun h => hne (randomNonce_inj hb1 hb2 h)

/-- Witness for C3: two concrete distinct byte draws give distinct nonces. -/
theorem randomNonce_fresh_injective_witness :
    (List.range 32).length = 32 ∧
    (List.replicate 32 7).length = 32 ∧
    randomNonce (List.range 32) ≠ randomNonce (List.replicate 32 7) :=
  ⟨by decide, by decide,
    randomNonce_fresh_injective (List.range 32) (List.replicate 32 7)
      (by decide) (by decide) (by decide) (by decide) (by decide)⟩

/-- **C7**: `buildPaymentHeader` fails with the `UnsupportedNetwork` error if
and only if the requirement's network string is not exactly two
colon-separated parts with namespace `eip155`; in particular
`"solana:mainnet"` fails; and for an accepted network whose suffix is a
decimal numeral the chain id is the value of that numeral. -/
theorem unsupported_network_spec (config : X402Config) (req : PaymentRequirement)
    (res : ResourceInfo) (now : Nat) (nb : List Nat) :
    (buildPaymentHeader config req res now nb =
        .error (.den (paymentRequiredError
          ("Unsupported network format: " ++ req.network) none)) ↔
      ¬ ((splitOnChar ':' req.network.data).length = 2 ∧
         (splitOnChar ':' req.network.data).headD [] = "eip155".data)) ∧
    (req.network = "solana:mainnet" →
      buildPaymentHeader config req res now nb =
        .error (.den (paymentRequiredError
          "Unsupported network format: solana:mainnet" none))) ∧
    (∀ ds : String, req.network = "eip155:" ++ ds → ds.data ≠ [] →
      (∀ c ∈ ds.data, c.isDigit) →
      parseChainId req.network = .ok (some ((digitsVal ds.data : Int)))) := by
  refine ⟨?_, ?_, ?_⟩
  · by_cases hcond : (splitOnChar ':' req.network.data).length ≠ 2 ∨
        (splitOnChar ':' req.network.data).headD [] ≠ "eip155".data
    · have hperr : parseChainId req.network =
          .error (paymentRequiredError ("Unsupported network format: " ++ req.network) none) := by
        unfold parseChainId
        rw [if_pos hcond]
      constructor
      · intro _ hand
        rcases hcond with hcc | hcc
        · exact hcc hand.1
        · exact hcc hand.2
      · intro _
        exact buildPaymentHeader_network_error config res now nb hperr
    · have hok : parseChainId req.network =
          .ok (jsParseInt ⟨(splitOnChar ':' req.network.data).getD 1 []⟩) := by
        unfold parseChainId
        rw [if_neg hcond]
      push_neg at hcond
      constructor
      · intro h
        exact absurd h (buildPaymentHeader_ne_den config res now nb hok _)
      · intro h
        exact absurd ⟨hcond.1, hcond.2⟩ h
  · intro hnet
    have hperr : parseChainId req.network =
        .error (paymentRequiredError "Unsupported network format: solana:mainnet" none) := by
      rw [hnet]
      rfl
    exact buildPaymentHeader_network_error config res now nb hperr
  · intro ds hnet hne hd
    rw [hnet]
    exact parseChainId_eip155 ds hne hd

/-- Witness for C7: the `"solana:mainnet"` network fails; the fixture network
`"eip155:42220"` parses to chain id 42220. -/
theorem unsupported_network_spec_witness :
    ({ sampleRequirement with network := "solana:mainnet" } :
        PaymentRequirement).network = "solana:mainnet" ∧
    buildPaymentHeader ⟨sampleAccount⟩
        { sampleRequirement with network := "solana:mainnet" }
        sampleResource 0 sampleNonceBytes =
      .error (.den (paymentRequiredError
        "Unsupported network format: solana:mainnet" none)) ∧
    parseChainId sampleRequirement.network = .ok (some 42220) :=
  ⟨rfl,
    (unsupported_network_spec ⟨sampleAccount⟩
      { sampleRequirement with network := "solana:mainnet" }
      sampleResource 0 sampleNonceBytes).2.1 rfl,
    (unsupported_network_spec ⟨sampleAccount⟩ sampleRequirement
      sampleResource 0 sampleNonceBytes).2.2 "42220" rfl (by decide) (by decide)⟩

/-- **C1**: whenever the network parses, the EIP-712 domain handed to the
signing capability is exactly the one derived from the chosen requirement —
name and version from `extra`, the parsed chain id, and the requirement's
asset contract: restricting the injected capability to that single domain
(and failing on every other domain) leaves the result of
`buildPaymentHeader` unchanged.  The configuration carries no domain
fields, so no cached or statically configured domain can be substituted. -/
theorem buildPaymentHeader_signing_domain (config : X402Config)
    (req : PaymentRequirement) (res : ResourceInfo) (now : Nat) (nb : List Nat)
    (cid : Option Int) (hc : parseChainId req.network = .ok cid) :
    buildPaymentHeader config req res now nb =
      buildPaymentHeader
        (X402Config.mk (Account.mk config.account.address (fun r =>
          if r.domain = Eip712Domain.mk req.extra.name req.extra.version cid req.asset
          then config.account.signTypedData r
          else .error (SignError.mk "signing capability invoked with a foreign domain"))))
        req res now nb := by
  unfold buildPaymentHeader
  rw [hc]
  simp only [Except.mapError, bind, Except.bind]
  cases hbv : jsBigInt req.amount with
  | none => rfl
  | some v => simp [paymentEnvelope, wireAuthorization]

/-- Witness for C1: the domain restriction is invisible on the fixture
requirement. -/
theorem buildPaymentHeader_signing_domain_witness :
    parseChainId sampleRequirement.network = .ok (some 42220) ∧
    buildPaymentHeader ⟨sampleAccount⟩ sampleRequirement sampleResource 0 sampleNonceBytes =
      buildPaymentHeader
        (X402Config.mk (Account.mk sampleAccount.address (fun r =>
          if r.domain = Eip712Domain.mk sampleRequirement.extra.name
              sampleRequirement.extra.version (some 42220) sampleRequirement.asset
          then sampleAccount.signTypedData r
          else .error (SignError.mk "signing capability invoked with a foreign domain"))))
        sampleRequirement sampleResource 0 sampleNonceBytes :=
  ⟨rfl, buildPaymentHeader_signing_domain ⟨sampleAccount⟩ sampleRequirement
    sampleResource 0 sampleNonceBytes (some 42220) rfl⟩

set_option maxRecDepth 200000 in
/-- Counterexample to C4 as frozen: `BigInt` accepts the hexadecimal amount
string `"0x1f"`, so `buildPaymentHeader` succeeds on a requirement carrying
it, and the wire-form authorization's `value` is that amount string copied
verbatim — `"0x1f"`, which is not a decimal string. -/
theorem wire_value_hex_counterexample :
    jsBigInt "0x1f" = some 31 ∧
    buildPaymentHeader ⟨sampleAccount⟩ { sampleRequirement with amount := "0x1f" }
        sampleResource 1700000000 sampleNonceBytes =
      .ok ((btoa (jsonStringify (paymentEnvelope ⟨sampleAccount⟩
        { sampleRequirement with amount := "0x1f" } sampleResource "0xdeadbeef"
        (1700000000 + SIGNATURE_VALIDITY_SECONDS)
        (randomNonce sampleNonceBytes)))).getD "") ∧
    jsField (wireAuthorization ⟨sampleAccount⟩ { sampleRequirement with amount := "0x1f" }
        (1700000000 + SIGNATURE_VALIDITY_SECONDS) (randomNonce sampleNonceBytes)) "value" =
      some (.str "0x1f") ∧
    ¬ ("0x1f".data.all Char.isDigit = true) :=
  ⟨rfl, by rfl, rfl, by decide⟩

/-- **C4** (amended): a successful `buildPaymentHeader` call returns the
base64 encoding of the JSON envelope consisting of the protocol version, the
resource descriptor verbatim, the full chosen requirement verbatim as
`accepted`, and a payload of the signature plus the wire-form authorization
whose `validAfter` and `validBefore` are decimal strings, whose `value` is
the requirement's `amount` string copied verbatim — a decimal string exactly
when the challenge's amount is one, as the data model prescribes, but
emitted unvalidated (`BigInt` also accepts hexadecimal, octal, binary,
signed and whitespace-padded forms, which then reach the wire verbatim) —
and whose `nonce` is a `0x`-prefixed 64-hex-character string (the signing
message carries `value`, `validAfter` and `validBefore` numerically). -/
theorem buildPaymentHeader_envelope (config : X402Config) (req : PaymentRequirement)
    (res : ResourceInfo) (now : Nat) (nb : List Nat) (cid : Option Int) (v : Int)
    (sig : String) (out : String)
    (hc : parseChainId req.network = .ok cid)
    (hv : jsBigInt req.amount = some v)
    (hs : config.account.signTypedData (SignRequest.mk
        (Eip712Domain.mk req.extra.name req.extra.version cid req.asset)
        EIP3009_TYPES "TransferWithAuthorization"
        (AuthMessage.mk config.account.address req.payTo v 0
          (now + SIGNATURE_VALIDITY_SECONDS) (randomNonce nb))) = .ok sig)
    (hb : btoa (jsonStringify (Json.obj
        [("x402Version", .num 2),
         ("resource", resourceJson res),
         ("accepted", requirementJson req),
         ("payload", .obj
           [("signature", .str sig),
            ("authorization", .obj
              [("from", .str config.account.address),
               ("to", .str req.payTo),
               ("value", .str req.amount),
               ("validAfter", .str "0"),
               ("validBefore", .str (jsString (now + SIGNATURE_VALIDITY_SECONDS))),
               ("nonce", .str (randomNonce nb))])])])) = some out) :
    buildPaymentHeader config req res now nb = .ok out ∧
    (nb.length = 32 → (∀ x ∈ nb, x < 256) →
      (randomNonce nb).length = 66 ∧
      (randomNonce nb).data.take 2 = ['0', 'x'] ∧
      ∀ ch ∈ (randomNonce nb).data.drop 2, ch ∈ "0123456789abcdef".data) ∧
    jsField (wireAuthorization config req (now + SIGNATURE_VALIDITY_SECONDS)
      (randomNonce nb)) "value" = some (.str req.amount) ∧
    (∀ ch ∈ ("0" : String).data, ch.isDigit) ∧
    (jsString (now + SIGNATURE_VALIDITY_SECONDS)).data ≠ [] ∧
    (∀ ch ∈ (jsString (now + SIGNATURE_VALIDITY_SECONDS)).data, ch.isDigit) := by
  refine ⟨?_, fun hl hb2 => randomNonce_format nb hl hb2, rfl, by decide,
    show (jsString (now + SIGNATURE_VALIDITY_SECONDS)).data ≠ [] from
      natDigits_ne_nil (now + SIGNATURE_VALIDITY_SECONDS),
    show ∀ ch ∈ (jsString (now + SIGNATURE_VALIDITY_SECONDS)).data, ch.isDigit from
      natDigits_all_isDigit (now + SIGNATURE_VALIDITY_SECONDS)⟩
  · rw [buildPaymentHeader_eq config req res now nb cid v sig hc hv hs]
    rw [show paymentEnvelope config req res sig (now + SIGNATURE_VALIDITY_SECONDS)
        (randomNonce nb) = Json.obj
        [("x402Version", .num 2),
         ("resource", resourceJson res),
         ("accepted", requirementJson req),
         ("payload", .obj
           [("signature", .str sig),
            ("authorization", .obj
              [("from", .str config.account.address),
               ("to", .str req.payTo),
               ("value", .str req.amount),
               ("validAfter", .str "0"),
               ("validBefore", .str (jsString (now + SIGNATURE_VALIDITY_SECONDS))),
               ("nonce", .str (randomNonce nb))])])] from rfl, hb]

set_option maxRecDepth 200000 in
/-- Witness for C4 (amended): the full pipeline evaluated on the fixture
data. -/
theorem buildPaymentHeader_envelope_witness :
    jsBigInt sampleRequirement.amount = some 1000 ∧
    buildPaymentHeader ⟨sampleAccount⟩ sampleRequirement sampleResource
        1700000000 sampleNonceBytes =
      .ok ((btoa (jsonStringify (paymentEnvelope ⟨sampleAccount⟩ sampleRequirement
        sampleResource "0xdeadbeef" (1700000000 + SIGNATURE_VALIDITY_SECONDS)
        (randomNonce sampleNonceBytes)))).getD "") :=
  ⟨by rfl,
    (buildPaymentHeader_envelope ⟨sampleAccount⟩ sampleRequirement sampleResource
      1700000000 sampleNonceBytes (some 42220) 1000 "0xdeadbeef"
      ((btoa (jsonStringify (paymentEnvelope ⟨sampleAccount⟩ sampleRequirement
        sampleResource "0xdeadbeef" (1700000000 + SIGNATURE_VALIDITY_SECONDS)
        (randomNonce sampleNonceBytes)))).getD "")
      (by rfl) (by rfl) (by rfl) (by rfl)).1⟩

/-- **C6**: every successful build at unix time `t` uses `validAfter = 0` and
`validBefore = t + 3600` (the fixed validity window): the signing capability
only ever sees messages with exactly these two values, `validBefore` is
strictly in the future and at most the window ahead, and the same
`validBefore` value appears numerically in the signed message and as a
decimal string (with `validAfter` as `"0"`) in the wire envelope. -/
theorem authorization_validity_window (config : X402Config)
    (req : PaymentRequirement) (res : ResourceInfo) (now : Nat) (nb : List Nat)
    (cid : Option Int) (hc : parseChainId req.network = .ok cid) :
    (now < now + SIGNATURE_VALIDITY_SECONDS ∧
      now + SIGNATURE_VALIDITY_SECONDS = now + 3600) ∧
    (buildPaymentHeader config req res now nb =
      buildPaymentHeader
        (X402Config.mk (Account.mk config.account.address (fun r =>
          if r.message.validAfter = 0 ∧
              r.message.validBefore = now + SIGNATURE_VALIDITY_SECONDS
          then config.account.signTypedData r
          else .error (SignError.mk "unexpected validity window"))))
        req res now nb) ∧
    (∀ vb nonce, jsField (wireAuthorization config req vb nonce) "validBefore"
        = some (.str (jsString vb)) ∧
      jsField (wireAuthorization config req vb nonce) "validAfter"
        = some (.str "0")) ∧
    (∀ v sig,
      config.account.signTypedData (SignRequest.mk
        (Eip712Domain.mk req.extra.name req.extra.version cid req.asset)
        EIP3009_TYPES "TransferWithAuthorization"
        (AuthMessage.mk config.account.address req.payTo v 0
          (now + SIGNATURE_VALIDITY_SECONDS) (randomNonce nb))) = .ok sig →
      jsBigInt req.amount = some v →
      buildPaymentHeader config req res now nb =
        match btoa (jsonStringify (paymentEnvelope config req res sig
            (now + SIGNATURE_VALIDITY_SECONDS) (randomNonce nb))) with
        | none => .error (.js .invalidCharacterError)
        | some header => .ok header) := by
  refine ⟨⟨by unfold SIGNATURE_VALIDITY_SECONDS; omega, rfl⟩, ?_, ?_, ?_⟩
  · unfold buildPaymentHeader
    rw [hc]
    simp only [Except.mapError, bind, Except.bind]
    cases hbv : jsBigInt req.amount with
    | none => rfl
    | some v => simp [paymentEnvelope, wireAuthorization]
  · intro vb nonce
    exact ⟨rfl, rfl⟩
  · intro v sig hs hv
    exact buildPaymentHeader_eq config req res now nb cid v sig hc hv hs

/-- Witness for C6: the validity window on the fixture data. -/
theorem authorization_validity_window_witness :
    parseChainId sampleRequirement.network = .ok (some 42220) ∧
    (1700000000 < 1700000000 + SIGNATURE_VALIDITY_SECONDS ∧
      1700000000 + SIGNATURE_VALIDITY_SECONDS = 1700000000 + 3600) ∧
    jsField (wireAuthorization ⟨sampleAccount⟩ sampleRequirement 1700003600 "0xabc")
        "validBefore" = some (.str (jsString 1700003600)) :=
  ⟨rfl,
    (authorization_validity_window ⟨sampleAccount⟩ sampleRequirement sampleResource
      1700000000 sampleNonceBytes (some 42220) rfl).1,
    ((authorization_validity_window ⟨sampleAccount⟩ sampleRequirement sampleResource
      1700000000 sampleNonceBytes (some 42220) rfl).2.2.1 1700003600 "0xabc").1⟩

/-- **C10**: the protocol version field of the emitted envelope is the
constant 2: the envelope always carries `x402Version = 2`, the builder never
receives the challenge's `x402Version` (only `accepts[0]` and `resource` are
taken from the decoded challenge), and two 402 responses whose challenges
differ only in `x402Version` lead to identical request traces — in
particular an identical `X-PAYMENT` header. -/
theorem envelope_version_constant :
    (∀ (config : X402Config) (req : PaymentRequirement) (res : ResourceInfo)
        (sig : String) (vb : Nat) (nonce : String),
      jsField (paymentEnvelope config req res sig vb nonce) "x402Version"
        = some (.num 2)) ∧
    (∀ (c : PaymentRequiredBody) (ver : Int),
      challengeOfJson (challengeJson { c with x402Version := ver })
        = { challengeOfJson (challengeJson c) with x402Version := ver }) ∧
    (∀ (a : Account) (r2 : Response) (now : Nat) (nb : List Nat)
        (c : PaymentRequiredBody) (ver : Int) (s1 s2 : String) (b1 b2 : Json),
      encodeChallenge c = some s1 →
      encodeChallenge { c with x402Version := ver } = some s2 →
      (DenScope.request (.x402 a) ⟨402, some s1, b1⟩ r2 now nb).2 =
        (DenScope.request (.x402 a) ⟨402, some s2, b2⟩ r2 now nb).2) := by
  refine ⟨fun _ _ _ _ _ _ => rfl, ?_, ?_⟩
  · intro c ver
    rw [challengeOfJson_challengeJson, challengeOfJson_challengeJson]
  · intro a r2 now nb c ver s1 s2 b1 b2 h1 h2
    have hd1 := decodePaymentRequired_encode h1 ⟨402, some s1, b1⟩ rfl
    have hd2 := decodePaymentRequired_encode h2 ⟨402, some s2, b2⟩ rfl
    cases c with
    | mk cv accepts resource rerr =>
      simp only [DenScope.request, hd1, hd2, challengeOfJson_challengeJson]
      by_cases hemp : accepts.isEmpty
      · simp [hemp]
      · cases hb : buildPaymentHeader ⟨a⟩ (accepts.headD emptyRequirement)
            resource now nb with
        | error e => simp [hemp, hb]
        | ok h => simp [hemp, hb]

set_option maxRecDepth 200000 in
/-- Witness for C10: two sample challenges differing only in the protocol
version produce the same trace. -/
theorem envelope_version_constant_witness :
    (encodeChallenge sampleChallenge =
      some ((encodeChallenge sampleChallenge).getD "")) ∧
    (DenScope.request (.x402 sampleAccount)
        ⟨402, some ((encodeChallenge sampleChallenge).getD ""), .null⟩
        ⟨200, none, .null⟩ 0 sampleNonceBytes).2 =
      (DenScope.request (.x402 sampleAccount)
        ⟨402, some ((encodeChallenge { sampleChallenge with x402Version := 99 }).getD ""),
          .null⟩
        ⟨200, none, .null⟩ 0 sampleNonceBytes).2 :=
  ⟨by rfl,
    envelope_version_constant.2.2 sampleAccount ⟨200, none, .null⟩ 0 sampleNonceBytes
      sampleChallenge 99
      ((encodeChallenge sampleChallenge).getD "")
      ((encodeChallenge { sampleChallenge with x402Version := 99 }).getD "")
      Json.null Json.null (by rfl) (by rfl)⟩

/-- **C8**: a 402 whose decoded challenge has an empty `accepts` list fails
with the no-accepted-payment-method error, terminally: exactly one transport
call is issued and the outcome does not depend on the signing account at
all, so the signing capability is never invoked. -/
theorem request_no_accepted_methods (a : Account) (r2 : Response) (now : Nat)
    (nb : List Nat) (c : PaymentRequiredBody) (s : String) (b : Json)
    (hacc : c.accepts = []) (he : encodeChallenge c = some s) :
    (DenScope.request (.x402 a) ⟨402, some s, b⟩ r2 now nb).1 =
      .error (.den (paymentRequiredError "No accepted payment methods"
        (some (challengeJson c)))) ∧
    (DenScope.request (.x402 a) ⟨402, some s, b⟩ r2 now nb).2.length = 1 ∧
    (∀ a2 : Account,
      DenScope.request (.x402 a2) ⟨402, some s, b⟩ r2 now nb =
        DenScope.request (.x402 a) ⟨402, some s, b⟩ r2 now nb) := by
  have hd := decodePaymentRequired_encode he ⟨402, some s, b⟩ rfl
  have hempty : (challengeOfJson (challengeJson c)).accepts.isEmpty = true := by
    rw [challengeOfJson_challengeJson, hacc]
    rfl
  refine ⟨?_, ?_, ?_⟩
  · simp only [DenScope.request, hd, hempty]
    rfl
  · simp only [DenScope.request, hd, hempty]
    rfl
  · intro a2
    simp only [DenScope.request, hd, hempty]
    rfl

set_option maxRecDepth 200000 in
/-- Witness for C8: the empty-accepts challenge fails terminally with one
transport call. -/
theorem request_no_accepted_methods_witness :
    emptyAcceptsChallenge.accepts = [] ∧
    (DenScope.request (.x402 sampleAccount)
        ⟨402, some ((encodeChallenge emptyAcceptsChallenge).getD ""), .null⟩
        ⟨200, none, .null⟩ 0 sampleNonceBytes).1 =
      .error (.den (paymentRequiredError "No accepted payment methods"
        (some (challengeJson emptyAcceptsChallenge)))) ∧
    (DenScope.request (.x402 sampleAccount)
        ⟨402, some ((encodeChallenge emptyAcceptsChallenge).getD ""), .null⟩
        ⟨200, none, .null⟩ 0 sampleNonceBytes).2.length = 1 :=
  have h := request_no_accepted_methods sampleAccount ⟨200, none, .null⟩ 0
    sampleNonceBytes emptyAcceptsChallenge
    ((encodeChallenge emptyAcceptsChallenge).getD "") .null rfl (by rfl)
  ⟨rfl, h.1, h.2.1⟩

/-- **C2** (amended): at most two transport calls ever happen; the retry is
issued exactly when the first response is a 402, an x402 signing account is
configured, the challenge decodes, its accepted-requirement list is
non-empty, and the payment header builds; an issued retry carries only the
`X-PAYMENT` header (no `Authorization`), and its response is terminal — it
is handed to `handleResponse` whatever its status, so a second 402 is not
retried; with an API-key configuration a 402 causes a single transport call
and a payment-required error. -/
theorem request_retry_policy (config : DenScopeConfig) (r1 r2 : Response)
    (now : Nat) (nb : List Nat) :
    ((DenScope.request config r1 r2 now nb).2.length ≤ 2) ∧
    ((DenScope.request config r1 r2 now nb).2.length = 2 ↔
      (r1.status = 402 ∧ ∃ a parsed header, config = .x402 a ∧
        decodePaymentRequired r1 = .ok parsed ∧
        (challengeOfJson parsed).accepts.isEmpty = false ∧
        buildPaymentHeader ⟨a⟩ ((challengeOfJson parsed).accepts.headD emptyRequirement)
          (challengeOfJson parsed).resource now nb = .ok header)) ∧
    (∀ a parsed header, config = .x402 a → r1.status = 402 →
      decodePaymentRequired r1 = .ok parsed →
      (challengeOfJson parsed).accepts.isEmpty = false →
      buildPaymentHeader ⟨a⟩ ((challengeOfJson parsed).accepts.headD emptyRequirement)
        (challengeOfJson parsed).resource now nb = .ok header →
      (DenScope.request config r1 r2 now nb).2 = [[], [("X-PAYMENT", header)]] ∧
      (DenScope.request config r1 r2 now nb).1 = handleResponse r2) ∧
    (∀ key, config = .apiKey key → r1.status = 402 →
      (DenScope.request config r1 r2 now nb).2 =
        [[("Authorization", "Bearer " ++ key)]] ∧
      (DenScope.request config r1 r2 now nb).1 =
        .error (.den (paymentRequiredError "Payment required" (some r1.body)))) := by
  cases config with
  | apiKey key =>
    have hreq : DenScope.request (.apiKey key) r1 r2 now nb =
        (handleResponse r1, [[("Authorization", "Bearer " ++ key)]]) := rfl
    refine ⟨by rw [hreq]; simp, ?_, ?_, ?_⟩
    · rw [hreq]
      simp only [List.length_cons, List.length_nil]
      constructor
      · intro h
        omega
      · rintro ⟨_, a, _, _, hcfg, _⟩
        exact DenScopeConfig.noConfusion hcfg
    · intro a parsed header hcfg
      exact absurd hcfg (by intro h; exact DenScopeConfig.noConfusion h)
    · intro key2 hcfg h402
      cases hcfg
      rw [hreq]
      refine ⟨rfl, ?_⟩
      unfold handleResponse
      rw [if_neg (by omega), if_neg (by omega), if_pos h402]
  | x402 a =>
    by_cases h402 : r1.status = 402
    · cases hdec : decodePaymentRequired r1 with
      | error e =>
        have hreq : DenScope.request (.x402 a) r1 r2 now nb =
            (.error (.den e), [[]]) := by
          simp only [DenScope.request, if_pos h402, hdec]
        refine ⟨by rw [hreq]; simp, ?_, ?_, ?_⟩
        · rw [hreq]
          simp only [List.length_cons, List.length_nil]
          constructor
          · intro h
            omega
          · rintro ⟨_, a2, parsed, header, hcfg, hdec2, _⟩
            cases hcfg
            simp [hdec] at hdec2
        · intro a2 parsed header hcfg _ hdec2
          cases hcfg
          simp [hdec] at hdec2
        · intro key hcfg
          exact absurd hcfg (by intro h; exact DenScopeConfig.noConfusion h)
      | ok parsed =>
        by_cases hemp : (challengeOfJson parsed).accepts.isEmpty
        · have hreq : DenScope.request (.x402 a) r1 r2 now nb =
              (.error (.den (paymentRequiredError "No accepted payment methods"
                (some parsed))), [[]]) := by
            simp only [DenScope.request, if_pos h402, hdec, if_pos hemp]
          refine ⟨by rw [hreq]; simp, ?_, ?_, ?_⟩
          · rw [hreq]
            simp only [List.length_cons, List.length_nil]
            constructor
            · intro h
              omega
            · rintro ⟨_, a2, parsed2, header, hcfg, hdec2, hne2, _⟩
              cases hcfg
              simp only [hdec, Except.ok.injEq] at hdec2
              subst hdec2
              rw [hemp] at hne2
              exact Bool.noConfusion hne2
          · intro a2 parsed2 header hcfg _ hdec2 hne2
            cases hcfg
            simp only [hdec, Except.ok.injEq] at hdec2
            subst hdec2
            rw [hemp] at hne2
            exact absurd hne2 (by intro h; exact Bool.noConfusion h)
          · intro key hcfg
            exact absurd hcfg (by intro h; exact DenScopeConfig.noConfusion h)
        · rw [Bool.not_eq_true] at hemp
          cases hbuild : buildPaymentHeader ⟨a⟩
              ((challengeOfJson parsed).accepts.headD emptyRequirement)
              (challengeOfJson parsed).resource now nb with
          | error e =>
            have hreq : DenScope.request (.x402 a) r1 r2 now nb =
                (.error e, [[]]) := by
              simp only [DenScope.request, if_pos h402, hdec, hemp, Bool.false_eq_true,
                if_false, hbuild]
            refine ⟨by rw [hreq]; simp, ?_, ?_, ?_⟩
            · rw [hreq]
              simp only [List.length_cons, List.length_nil]
              constructor
              · intro h
                omega
              · rintro ⟨_, a2, parsed2, header, hcfg, hdec2, _, hbuild2⟩
                cases hcfg
                simp only [hdec, Except.ok.injEq] at hdec2
                subst hdec2
                simp only [hbuild] at hbuild2
                exact Except.noConfusion hbuild2
            · intro a2 parsed2 header hcfg _ hdec2 _ hbuild2
              cases hcfg
              simp only [hdec, Except.ok.injEq] at hdec2
              subst hdec2
              simp only [hbuild] at hbuild2
              exact Except.noConfusion hbuild2
            · intro key hcfg
              exact absurd hcfg (by intro h; exact DenScopeConfig.noConfusion h)
          | ok header =>
            have hreq : DenScope.request (.x402 a) r1 r2 now nb =
                (handleResponse r2, [[], [("X-PAYMENT", header)]]) := by
              simp only [DenScope.request, if_pos h402, hdec, hemp, Bool.false_eq_true,
                if_false, hbuild]
            refine ⟨by rw [hreq]; simp, ?_, ?_, ?_⟩
            · rw [hreq]
              simp only [List.length_cons, List.length_nil]
              constructor
              · intro _
                exact ⟨h402, a, parsed, header, rfl, rfl, hemp, hbuild⟩
              · intro _
                trivial
            · intro a2 parsed2 header2 hcfg _ hdec2 _ hbuild2
              cases hcfg
              simp only [hdec, Except.ok.injEq] at hdec2
              subst hdec2
              simp only [hbuild, Except.ok.injEq] at hbuild2
              subst hbuild2
              rw [hreq]
              exact ⟨rfl, rfl⟩
            · intro key hcfg
              exact absurd hcfg (by intro h; exact DenScopeConfig.noConfusion h)
    · have hreq : DenScope.request (.x402 a) r1 r2 now nb =
          (handleResponse r1, [[]]) := by
        simp only [DenScope.request, if_neg h402]
      refine ⟨by rw [hreq]; simp, ?_, ?_, ?_⟩
      · rw [hreq]
        simp only [List.length_cons, List.length_nil]
        constructor
        · intro h
          omega
        · rintro ⟨h4, _⟩
          exact absurd h4 h402
      · intro a2 parsed header hcfg h4
        exact absurd h4 h402
      · intro key hcfg
        exact absurd hcfg (by intro h; exact DenScopeConfig.noConfusion h)

/-- Counterexample to C2 as frozen: a 402 first response with an x402
signing account configured, whose challenge header is absent, issues no
retry — only one transport call happens — refuting "the payment retry is
issued if and only if the first response has the payment-required status and
a signing capability is configured". -/
theorem request_retry_iff_counterexample :
    (Response.mk 402 none Json.null).status = 402 ∧
    isX402Config (.x402 sampleAccount) = true ∧
    (DenScope.request (.x402 sampleAccount) ⟨402, none, .null⟩
      ⟨200, none, .null⟩ 0 sampleNonceBytes).2.length = 1 ∧
    (DenScope.request (.x402 sampleAccount) ⟨402, none, .null⟩
      ⟨200, none, .null⟩ 0 sampleNonceBytes).1 =
      .error (.den (paymentRequiredError
        "402 response missing PAYMENT-REQUIRED header" none)) :=
  ⟨rfl, rfl, rfl, rfl⟩

set_option maxRecDepth 400000 in
/-- Witness for C2 (amended): the full success path on the fixture data —
two calls, the second carrying only `X-PAYMENT`. -/
theorem request_retry_policy_witness :
    decodePaymentRequired
        ⟨402, some ((encodeChallenge sampleChallenge).getD ""), .null⟩ =
      .ok (challengeJson sampleChallenge) ∧
    (DenScope.request (.x402 sampleAccount)
        ⟨402, some ((encodeChallenge sampleChallenge).getD ""), .null⟩
        ⟨200, none, .null⟩ 1700000000 sampleNonceBytes).2 =
      [[], [("X-PAYMENT", (buildPaymentHeader ⟨sampleAccount⟩ sampleRequirement
        sampleResource 1700000000 sampleNonceBytes).toOption.getD "")]] ∧
    (DenScope.request (.x402 sampleAccount)
        ⟨402, some ((encodeChallenge sampleChallenge).getD ""), .null⟩
        ⟨200, none, .null⟩ 1700000000 sampleNonceBytes).1 =
      handleResponse ⟨200, none, .null⟩ :=
  have h := (request_retry_policy (.x402 sampleAccount)
      ⟨402, some ((encodeChallenge sampleChallenge).getD ""), .null⟩
      ⟨200, none, .null⟩ 1700000000 sampleNonceBytes).2.2.1
    sampleAccount (challengeJson sampleChallenge)
    ((buildPaymentHeader ⟨sampleAccount⟩ sampleRequirement
      sampleResource 1700000000 sampleNonceBytes).toOption.getD "")
    rfl rfl (by rfl) (by rfl) (by rfl)
  ⟨by rfl, h.1, h.2⟩

/-- Counterexample to C9 as frozen: a missing challenge header and a
malformed challenge header — two different failure causes — produce error
values that agree on every structured field (`name`, `status`, `body`) and
differ only in the human-readable message, so the caller cannot tell the
four failure kinds apart from the structured error value. -/
theorem error_kinds_counterexample :
    decodePaymentRequired ⟨402, none, .null⟩ =
      .error (paymentRequiredError "402 response missing PAYMENT-REQUIRED header" none) ∧
    decodePaymentRequired ⟨402, some "!!!", .null⟩ =
      .error (paymentRequiredError "Failed to decode PAYMENT-REQUIRED header" none) ∧
    (paymentRequiredError "402 response missing PAYMENT-REQUIRED header" none).name =
      (paymentRequiredError "Failed to decode PAYMENT-REQUIRED header" none).name ∧
    (paymentRequiredError "402 response missing PAYMENT-REQUIRED header" none).status =
      (paymentRequiredError "Failed to decode PAYMENT-REQUIRED header" none).status ∧
    (paymentRequiredError "402 response missing PAYMENT-REQUIRED header" none).body =
      (paymentRequiredError "Failed to decode PAYMENT-REQUIRED header" none).body ∧
    "402 response missing PAYMENT-REQUIRED header" ≠
      "Failed to decode PAYMENT-REQUIRED header" :=
  ⟨rfl, rfl, rfl, rfl, rfl, by decide⟩

/-- **C9** (amended): all four protocol failures surface as
`PaymentRequiredError` values with status 402, distinguishable only by their
human-readable messages (which are pairwise distinct; the
no-accepted-payment-method failure additionally carries the decoded
challenge as `body`); none of them is swallowed or retried — each
propagates to the caller after a single transport call. -/
theorem error_kinds_amended :
    ((paymentRequiredError "402 response missing PAYMENT-REQUIRED header" none).name
        = "PaymentRequiredError" ∧
      (paymentRequiredError "402 response missing PAYMENT-REQUIRED header" none).status
        = 402) ∧
    ((paymentRequiredError "Failed to decode PAYMENT-REQUIRED header" none).name
        = "PaymentRequiredError" ∧
      (paymentRequiredError "Failed to decode PAYMENT-REQUIRED header" none).status
        = 402) ∧
    (∀ net : String,
      (paymentRequiredError ("Unsupported network format: " ++ net) none).name
          = "PaymentRequiredError" ∧
        (paymentRequiredError ("Unsupported network format: " ++ net) none).status
          = 402) ∧
    (∀ b : Option Json,
      (paymentRequiredError "No accepted payment methods" b).name
          = "PaymentRequiredError" ∧
        (paymentRequiredError "No accepted payment methods" b).status = 402 ∧
        (paymentRequiredError "No accepted payment methods" b).body = b) ∧
    ("402 response missing PAYMENT-REQUIRED header" ≠
        "Failed to decode PAYMENT-REQUIRED header" ∧
      "402 response missing PAYMENT-REQUIRED header" ≠ "No accepted payment methods" ∧
      "Failed to decode PAYMENT-REQUIRED header" ≠ "No accepted payment methods" ∧
      ∀ net : String,
        "Unsupported network format: " ++ net ≠
            "402 response missing PAYMENT-REQUIRED header" ∧
          "Unsupported network format: " ++ net ≠
            "Failed to decode PAYMENT-REQUIRED header" ∧
          "Unsupported network format: " ++ net ≠ "No accepted payment methods") ∧
    (∀ (a : Account) (r1 r2 : Response) (now : Nat) (nb : List Nat)
        (e : DenScopeError), r1.status = 402 →
      decodePaymentRequired r1 = .error e →
      DenScope.request (.x402 a) r1 r2 now nb = (.error (.den e), [[]])) ∧
    (∀ (a : Account) (r1 r2 : Response) (now : Nat) (nb : List Nat)
        (parsed : Json), r1.status = 402 →
      decodePaymentRequired r1 = .ok parsed →
      (challengeOfJson parsed).accepts.isEmpty = true →
      DenScope.request (.x402 a) r1 r2 now nb =
        (.error (.den (paymentRequiredError "No accepted payment methods"
          (some parsed))), [[]])) ∧
    (∀ (a : Account) (r1 r2 : Response) (now : Nat) (nb : List Nat)
        (parsed : Json) (e : ClientError), r1.status = 402 →
      decodePaymentRequired r1 = .ok parsed →
      (challengeOfJson parsed).accepts.isEmpty = false →
      buildPaymentHeader ⟨a⟩ ((challengeOfJson parsed).accepts.headD emptyRequirement)
        (challengeOfJson parsed).resource now nb = .error e →
      DenScope.request (.x402 a) r1 r2 now nb = (.error e, [[]])) := by
  have hU : ∀ s : String,
      ("Unsupported network format: " ++ s).data.head? = some 'U' := by
    intro s
    rw [String.data_append]
    rfl
  refine ⟨⟨rfl, rfl⟩, ⟨rfl, rfl⟩, fun _ => ⟨rfl, rfl⟩, fun _ => ⟨rfl, rfl, rfl⟩,
    ⟨by decide, by decide, by decide, ?_⟩, ?_, ?_, ?_⟩
  · intro net
    refine ⟨fun h => ?_, fun h => ?_, fun h => ?_⟩
    · have h2 := hU net
      rw [h] at h2
      exact absurd h2 (by decide)
    · have h2 := hU net
      rw [h] at h2
      exact absurd h2 (by decide)
    · have h2 := hU net
      rw [h] at h2
      exact absurd h2 (by decide)
  · intro a r1 r2 now nb e h402 hdec
    simp only [DenScope.request, if_pos h402, hdec]
  · intro a r1 r2 now nb parsed h402 hdec hemp
    simp only [DenScope.request, if_pos h402, hdec, if_pos hemp]
  · intro a r1 r2 now nb parsed e h402 hdec hemp hbuild
    simp only [DenScope.request, if_pos h402, hdec, hemp, Bool.false_eq_true,
      if_false, hbuild]

/-- Witness for C9 (amended): the missing-header failure surfaces unchanged
after a single transport call. -/
theorem error_kinds_amended_witness :
    decodePaymentRequired ⟨402, none, .null⟩ =
      .error (paymentRequiredError "402 response missing PAYMENT-REQUIRED header" none) ∧
    DenScope.request (.x402 sampleAccount) ⟨402, none, .null⟩
        ⟨200, none, .null⟩ 0 sampleNonceBytes =
      (.error (.den (paymentRequiredError
        "402 response missing PAYMENT-REQUIRED header" none)), [[]]) :=
  ⟨rfl, error_kinds_amended.2.2.2.2.2.1 sampleAccount ⟨402, none, .null⟩
    ⟨200, none, .null⟩ 0 sampleNonceBytes
    (paymentRequiredError "402 response missing PAYMENT-REQUIRED header" none) rfl rfl⟩
